/-
Verification of the Eclosion backend against its specification.

Shallow embedding of the core algorithms:
- refunds view matching (src/services/refunds_service.py),
- sync scheduler job registration (src/core/scheduler.py),
- notes inheritance, archival, checkbox state (src/state/db/repositories/notes_repo.py),
- frozen monthly target calculator (src/services/frozen_target_calculator.py),
- IP lockout state machine (src/services/security_service.py).

Month keys are Python strings compared lexicographically; Lean's `String`
linear order (lexicographic on characters, prefix-smaller) coincides with
Python's string comparison on these values, so month keys are embedded as
`String`. Python floats are embedded as `ℚ`: every arithmetic operation the
embedded code performs (+, -, /, floor, comparison) is exact in the claims
considered here.
-/

import Mathlib

set_option autoImplicit false

namespace Eclosion

/-! ## Refunds view matching (src/services/refunds_service.py) -/

/-- A Monarch transaction as consumed by the refunds service: its tag ids and
optional category id (`txn.get("tags", [])`, `(txn.get("category") or {}).get("id")`). -/
structure Txn where
  tags : List String
  category : Option String
  deriving Repr, DecidableEq

/-- Embedding of `_txn_matches_view` (refunds_service.py lines 445-459).
`tagSet` is the view's tag id set, `catSet` the view's category id set
(`none` encodes `cat_set is None`). Set intersection non-emptiness is
expressed with `List.any`/`contains`. -/
def txnMatchesView (txn : Txn) (tagSet : List String) (catSet : Option (List String)) : Bool :=
  let txnTags := txn.tags
  let tagsMatch := (!tagSet.isEmpty) && tagSet.any (fun t => txnTags.contains t)
  if !tagsMatch && catSet.isNone then
    false
  else
    let catsMatch :=
      match catSet, txn.category with
      | some cs, some cid => cs.contains cid
      | _, _ => false
    if !tagsMatch && !catsMatch then
      false
    else
      !(catSet.isSome && !catsMatch)

/-- The matching predicate exactly as the specification words it:
`v.tag_ids ∩ t.tags ≠ ∅ AND (v.category_ids == null OR t.category ∈ v.category_ids)`.
Spec-side definition, written to be compared against `txnMatchesView`. -/
def specMatchesView (txn : Txn) (tagSet : List String) (catSet : Option (List String)) : Bool :=
  (tagSet.any (fun t => txn.tags.contains t)) &&
    (match catSet with
     | none => true
     | some cs =>
       match txn.category with
       | some cid => cs.contains cid
       | none => false)

/-! ## Sync scheduler (src/core/scheduler.py) -/

/-- An APScheduler job as registered by `SyncScheduler.enable_auto_sync`:
its id, interval trigger in minutes, `max_instances` and `coalesce` flags. -/
structure Job where
  id : String
  intervalMinutes : Nat
  maxInstances : Nat
  coalesce : Bool
  deriving Repr, DecidableEq

/-- `SyncScheduler.SYNC_JOB_ID` (scheduler.py line 36). -/
def SYNC_JOB_ID : String := "automated_sync"

/-- `SyncScheduler.FOREGROUND_INTERVAL_MINUTES` (scheduler.py line 37). -/
def FOREGROUND_INTERVAL_MINUTES : Nat := 5

/-- `SyncScheduler.BACKGROUND_INTERVAL_MINUTES` (scheduler.py line 38). -/
def BACKGROUND_INTERVAL_MINUTES : Nat := 60

/-- Embedding of `SyncScheduler.enable_auto_sync` (scheduler.py lines 85-129)
acting on the scheduler's job store: picks the interval from the visibility
state, removes any existing job with `SYNC_JOB_ID`, and adds one job with
that id, `max_instances=1`, `coalesce=True`. Returns the chosen interval and
the new job store. -/
def enableAutoSync (isForeground : Bool) (jobs : List Job) : Nat × List Job :=
  let interval :=
    if isForeground then FOREGROUND_INTERVAL_MINUTES else BACKGROUND_INTERVAL_MINUTES
  let withoutOld := jobs.filter (fun j => !(j.id == SYNC_JOB_ID))
  (interval, withoutOld ++ [⟨SYNC_JOB_ID, interval, 1, true⟩])

/-! ## Shared helpers for the Python embedding -/

/-- Python truthiness of an optional string argument (`if not ip_address`,
`if note_id:`): `None` and the empty string are falsy. -/
def pyTruthyStr : Option String → Bool
  | none => false
  | some s => !s.isEmpty

/-- Python string `<` (lexicographic on code points), computed on the
character list. It agrees with Lean's `String` order
(`String.lt_iff_toList_lt`); the list form is used so that concrete
comparisons evaluate. -/
def pyStrLt (a b : String) : Bool := decide (a.toList < b.toList)

/-- Python string `≤`, computed on the character list. -/
def pyStrLe (a b : String) : Bool := decide (a.toList ≤ b.toList)

/-- Replace the first element satisfying `p` (the row returned by
`.first()` and then mutated in place by SQLAlchemy). -/
def replaceFirst {α : Type} (p : α → Bool) (f : α → α) : List α → List α
  | [] => []
  | x :: xs => if p x then f x :: xs else x :: replaceFirst p f xs

/-! ## Notes repository: data model (src/state/db/repositories/notes_repo.py)

A category note as returned (decrypted) by `get_notes_for_category`: only
the fields the inheritance algorithms consult are carried (`id`,
`month_key`, `content`); the list is per-category, ordered ascending by
`month_key` (`order_by(Note.month_key)`). -/

structure NoteR where
  id : String
  monthKey : String
  content : String
  deriving Repr, DecidableEq

/-- The annotated result of `get_effective_note`: the dict
`{"note": note, "source_month": ..., "is_inherited": ...}`. -/
structure EffectiveNote where
  note : NoteR
  sourceMonth : String
  isInherited : Bool
  deriving Repr, DecidableEq

/-- Embedding of `get_effective_note` (notes_repo.py lines 142-161): scan
`reversed(notes)` for the first note with `month_key <= target_month`
(String `≤` is lexicographic on characters, as in Python). -/
def getEffectiveNote (notes : List NoteR) (targetMonth : String) : Option EffectiveNote :=
  (notes.reverse.find? (fun n => pyStrLe n.monthKey targetMonth)).map
    (fun n => ⟨n, n.monthKey, n.monthKey != targetMonth⟩)

/-! ## Checkbox state store (notes_repo.py lines 390-582) -/

/-- A `CheckboxState` row: exactly one of `note_id` /
`general_note_month_key` is set; `states_json` is decoded to the boolean
array it stores. -/
structure CheckboxRow where
  noteId : Option String
  generalNoteMonthKey : Option String
  viewingMonth : String
  states : List Bool
  deriving Repr, DecidableEq

/-- The row lookup `update_checkbox_state` / the getters perform: filter on
`(note_id, viewing_month)` when `note_id` is truthy, else on
`(general_note_month_key, viewing_month)`, taking `.first()`. -/
def findCheckboxRow (table : List CheckboxRow) (noteId genKey : Option String)
    (viewingMonth : String) : Option CheckboxRow :=
  if pyTruthyStr noteId then
    table.find? (fun r => r.noteId == noteId && r.viewingMonth == viewingMonth)
  else
    table.find? (fun r => r.generalNoteMonthKey == genKey && r.viewingMonth == viewingMonth)

/-- The array transformation inside `update_checkbox_state` (lines 461-471):
`while len(states) <= checkbox_index: states.append(False)` (closed form:
append `checkbox_index + 1 - len` copies of `False`), then
`states[checkbox_index] = is_checked`. -/
def setCheckboxIndex (states : List Bool) (checkboxIndex : Nat) (isChecked : Bool) : List Bool :=
  (states ++ List.replicate (checkboxIndex + 1 - states.length) false).set checkboxIndex isChecked

/-- The prior states array `update_checkbox_state` starts from: the found
row's decoded `states_json`, or `[]` when no row exists (lines 461-464). -/
def priorCheckboxStates (table : List CheckboxRow) (noteId genKey : Option String)
    (viewingMonth : String) : List Bool :=
  match findCheckboxRow table noteId genKey viewingMonth with
  | some r => r.states
  | none => []

/-- Embedding of `update_checkbox_state` (notes_repo.py lines 424-488):
look up the existing row, decode its array (or start from `[]`), extend and
set, then write back (update the found row in place, or insert a new row).
Returns the updated states array and the new table. -/
def updateCheckboxState (table : List CheckboxRow) (viewingMonth : String)
    (checkboxIndex : Nat) (isChecked : Bool)
    (noteId : Option String) (genKey : Option String) : List Bool × List CheckboxRow :=
  let existing := findCheckboxRow table noteId genKey viewingMonth
  let prior := match existing with
    | some r => r.states
    | none => []
  let states := setCheckboxIndex prior checkboxIndex isChecked
  match existing with
  | some _ =>
    let table' :=
      if pyTruthyStr noteId then
        replaceFirst (fun r => r.noteId == noteId && r.viewingMonth == viewingMonth)
          (fun r => { r with states := states }) table
      else
        replaceFirst (fun r => r.generalNoteMonthKey == genKey && r.viewingMonth == viewingMonth)
          (fun r => { r with states := states }) table
    (states, table')
  | none => (states, table ++ [⟨noteId, genKey, viewingMonth, states⟩])

/-! ## IP lockout (src/services/security_service.py lines 615-717)

Timestamps are embedded as seconds (`Nat`); `datetime.now(UTC)` is the
explicit `now` argument, and `timedelta(minutes=m)` is `m * 60`. -/

/-- `LOCKOUT_THRESHOLD` (security_service.py line 74). -/
def LOCKOUT_THRESHOLD : Nat := 10

/-- `LOCKOUT_DURATION_MINUTES` (security_service.py line 75). -/
def LOCKOUT_DURATION_MINUTES : Nat := 15

/-- A row of the `ip_lockouts` table (`ip_address` is the primary key). -/
structure IpRow where
  ipAddress : String
  failedAttempts : Nat
  lockedUntil : Option Nat
  lastAttempt : Nat
  deriving Repr, DecidableEq

/-- Embedding of `is_ip_locked_out` (lines 615-644): falsy ip → `False`;
no row or NULL `locked_until` → `False`; `now < locked_until` → `True`;
expired → delete the row and return `False`. Returns the flag and the
possibly-updated table. -/
def isIpLockedOut (now : Nat) (ipAddress : Option String) (table : List IpRow) :
    Bool × List IpRow :=
  if !(pyTruthyStr ipAddress) then (false, table)
  else
    let ip := ipAddress.getD ""
    match table.find? (fun r => r.ipAddress == ip) with
    | none => (false, table)
    | some r =>
      match r.lockedUntil with
      | none => (false, table)
      | some lockedUntil =>
        if now < lockedUntil then (true, table)
        else (false, table.filter (fun r' => !(r'.ipAddress == ip)))

/-- The `current_attempts` read of `record_failed_remote_unlock` (lines
659-665): the row's `failed_attempts`, or 0 when there is no row. -/
def priorFailedAttempts (table : List IpRow) (ip : String) : Nat :=
  match table.find? (fun r => r.ipAddress == ip) with
  | some r => r.failedAttempts
  | none => 0

/-- Embedding of `record_failed_remote_unlock` (lines 646-698): falsy ip →
`False` without touching the table; otherwise read the current attempt
count (0 if no row), increment, set `locked_until = now + 15 min` when the
new count reaches the threshold, and upsert the row keyed by `ip_address`.
Returns whether the IP is now locked out, and the new table. -/
def recordFailedRemoteUnlock (now : Nat) (ipAddress : Option String) (table : List IpRow) :
    Bool × List IpRow :=
  if !(pyTruthyStr ipAddress) then (false, table)
  else
    let ip := ipAddress.getD ""
    let currentAttempts := match table.find? (fun r => r.ipAddress == ip) with
      | some r => r.failedAttempts
      | none => 0
    let newAttempts := currentAttempts + 1
    let lockedUntil : Option Nat :=
      if newAttempts ≥ LOCKOUT_THRESHOLD then some (now + LOCKOUT_DURATION_MINUTES * 60)
      else none
    let table' :=
      if (table.find? (fun r => r.ipAddress == ip)).isSome then
        replaceFirst (fun r => r.ipAddress == ip)
          (fun r => ⟨r.ipAddress, newAttempts, lockedUntil, now⟩) table
      else
        table ++ [⟨ip, newAttempts, lockedUntil, now⟩]
    (decide (newAttempts ≥ LOCKOUT_THRESHOLD), table')

/-- Embedding of `clear_ip_lockout` / `_clear_ip_lockout` (lines 700-717):
falsy ip is a no-op; otherwise delete every row for that ip. -/
def clearIpLockout (ipAddress : Option String) (table : List IpRow) : List IpRow :=
  if !(pyTruthyStr ipAddress) then table
  else table.filter (fun r => !(r.ipAddress == ipAddress.getD ""))

/-- `record_failed_remote_unlock` iterated `k` times from the same ip
(consecutive failures), used to state the 10th-failure transition. -/
def iterateFailures (now : Nat) (ipAddress : Option String) (table : List IpRow) :
    Nat → List IpRow
  | 0 => table
  | k + 1 => (recordFailedRemoteUnlock now ipAddress (iterateFailures now ipAddress table k)).2

/-- Row uniqueness invariant of the `ip_lockouts` table: `ip_address` is
the primary key, so ips are pairwise distinct. -/
def UniqueIps (table : List IpRow) : Prop :=
  table.Pairwise (fun a b => a.ipAddress ≠ b.ipAddress)

/-! ## Frozen monthly target calculator (src/services/frozen_target_calculator.py)

Python floats are embedded as `ℚ`; `int(rate + 0.5)` truncates toward zero,
which for the positive rates it is applied to equals `⌊rate + 1/2⌋`. -/

/-- Embedding of `round_monthly_rate` (frozen_target_calculator.py lines
27-40): 0 for non-positive rates, else round half up with a $1 floor. -/
def roundMonthlyRate (rate : ℚ) : ℤ :=
  if rate ≤ 0 then 0 else max 1 ⌊rate + 1/2⌋

/-- Embedding of `_calculate_target` (lines 166-204). In the sub-monthly
branch the code divides by `frequency_months`; `ℚ` division by zero yields
0 where Python would raise, a case no claim exercises. -/
def calculateTarget (amount frequencyMonths monthsUntilDue startingBalance : ℚ) : ℚ :=
  if frequencyMonths < 1 then
    ((roundMonthlyRate (max 0 (amount / frequencyMonths - startingBalance)) : ℤ) : ℚ)
  else if frequencyMonths = 1 then
    ((roundMonthlyRate (max 0 (amount - startingBalance)) : ℤ) : ℚ)
  else
    let shortfall := max 0 (amount - startingBalance)
    let monthsRemaining := max 1 monthsUntilDue
    if 0 < shortfall then ((roundMonthlyRate (shortfall / monthsRemaining) : ℤ) : ℚ)
    else 0

/-- The record persisted by `state_manager.set_frozen_target` and read back
by `get_frozen_target` (the `StateManagerProtocol` contract plus the frozen
fields of the data model's Category entity). -/
structure StoredTarget where
  frozenMonthlyTarget : ℚ
  targetMonth : String
  balanceAtStart : ℚ
  frozenAmount : ℚ
  frozenFrequencyMonths : ℚ
  frozenRolloverAmount : Option ℚ
  frozenNextDueDate : Option String
  deriving Repr, DecidableEq

/-- The inputs of `calculate_frozen_target` for one recurring item
(`current_month` is the explicit YYYY-MM argument). -/
structure FrozenInputs where
  amount : ℚ
  frequencyMonths : ℚ
  monthsUntilDue : ℚ
  rolloverAmount : ℚ
  budgetedThisMonth : ℚ
  nextDueDate : Option String
  currentMonth : String
  deriving Repr, DecidableEq

/-- The `needs_recalc` condition of `calculate_frozen_target` (lines
113-120): no stored target, or any fingerprint field differs, or the stored
`target_month` is not the current month. -/
def needsRecalc (stored : Option StoredTarget) (inp : FrozenInputs) : Bool :=
  match stored with
  | none => true
  | some st =>
    !(decide (st.targetMonth = inp.currentMonth)) ||
    !(decide (st.frozenAmount = inp.amount)) ||
    !(decide (st.frozenFrequencyMonths = inp.frequencyMonths)) ||
    !(decide (st.frozenRolloverAmount = some inp.rolloverAmount)) ||
    !(decide (st.frozenNextDueDate = inp.nextDueDate))

/-- `FrozenTargetResult` (lines 60-68). -/
structure FrozenResult where
  frozenTarget : ℚ
  balanceAtStart : ℚ
  contributedThisMonth : ℚ
  monthlyProgressPercent : ℚ
  wasRecalculated : Bool
  deriving Repr, DecidableEq

/-- Embedding of `calculate_frozen_target` (lines 71-163): the state
manager is passed explicitly as the stored target for this recurring id,
and the updated store is returned alongside the result. -/
def calculateFrozenTarget (inp : FrozenInputs) (stored : Option StoredTarget) :
    FrozenResult × Option StoredTarget :=
  let recalc :=
    let frozenTarget :=
      calculateTarget inp.amount inp.frequencyMonths inp.monthsUntilDue inp.rolloverAmount
    let newStored : StoredTarget :=
      ⟨frozenTarget, inp.currentMonth, inp.rolloverAmount, inp.amount, inp.frequencyMonths,
        some inp.rolloverAmount, inp.nextDueDate⟩
    ((frozenTarget, inp.rolloverAmount, true), some newStored)
  let (core, stored') :=
    match stored, needsRecalc stored inp with
    | some st, false =>
      ((st.frozenMonthlyTarget, st.frozenRolloverAmount.getD 0, false), some st)
    | _, _ => recalc
  let (frozenTarget, balanceAtStart, wasRecalculated) := core
  let contributedThisMonth := max 0 inp.budgetedThisMonth
  let monthlyProgressPercent :=
    if 0 < frozenTarget then contributedThisMonth / frozenTarget * 100 else 100
  (⟨frozenTarget, balanceAtStart, contributedThisMonth, monthlyProgressPercent,
    wasRecalculated⟩, stored')

/-! ## Month arithmetic and inheritance impact (notes_repo.py lines 586-767)

Month keys travel as strings; `_get_months_in_range` parses
`start_month.split("-")` into integers, formats `f"{year:04d}-{month:02d}"`,
and compares the formatted keys to `end_month` as strings. -/

/-- Zero-pad a natural number to `width` digits (Python `f"{n:0Nd}"`). -/
def zeroPad (width : Nat) (n : Nat) : String :=
  let s := toString n
  String.mk (List.replicate (width - s.length) '0') ++ s

/-- `f"{year:04d}-{month:02d}"` (notes_repo.py line 752). -/
def formatMonthKey (year month : Nat) : String :=
  zeroPad 4 year ++ "-" ++ zeroPad 2 month

/-- Python `str.split("-")` on the character list: split at every dash,
preserving empty parts. -/
def splitOnDash : List Char → List (List Char)
  | [] => [[]]
  | c :: rest =>
    if c = '-' then [] :: splitOnDash rest
    else
      match splitOnDash rest with
      | [] => [[c]]
      | part :: parts => (c :: part) :: parts

/-- Python `int(...)` on a digit string (the only inputs the repository
feeds it): `none` on the empty string or any non-digit, on which Python
would raise. -/
def parseNatChars (l : List Char) : Option Nat :=
  l.foldl
    (fun acc c =>
      match acc with
      | some n =>
        if 48 ≤ c.toNat ∧ c.toNat ≤ 57 then some (n * 10 + (c.toNat - 48)) else none
      | none => none)
    (if l.isEmpty then none else some 0)

/-- `start_month.split("-")` + `int(...)` (lines 746-748); malformed input
(on which Python would raise) parses to 0. -/
def parseMonthKey (s : String) : Nat × Nat :=
  match splitOnDash s.data with
  | y :: m :: _ => ((parseNatChars y).getD 0, (parseNatChars m).getD 0)
  | _ => (0, 0)

/-- The break condition of the `_get_months_in_range` loop (line 755):
`end_month and month_key >= end_month`, with Python string truthiness and
lexicographic comparison. -/
def affectedEndCond (endMonth : Option String) (monthKey : String) : Bool :=
  match endMonth with
  | some e => (!e.isEmpty) && pyStrLe e monthKey
  | none => false

/-- The loop of `_get_months_in_range` (lines 750-767), fuelled by the
remaining `max_future_months - count`: emit `f"{year:04d}-{month:02d}"`,
break when `end_month` is truthy and `month_key >= end_month`, and roll the
month over into the next year after 12. -/
def monthsInRangeAux (endMonth : Option String) : Nat → Nat → Nat → List String
  | _, _, 0 => []
  | year, month, fuel + 1 =>
    let monthKey := formatMonthKey year month
    if affectedEndCond endMonth monthKey then
      []
    else
      monthKey ::
        (if month + 1 > 12 then monthsInRangeAux endMonth (year + 1) 1 fuel
         else monthsInRangeAux endMonth year (month + 1) fuel)

/-- Embedding of `_get_months_in_range` (lines 733-767). -/
def monthsInRange (startMonth : String) (endMonth : Option String)
    (maxFutureMonths : Nat := 12) : List String :=
  let p := parseMonthKey startMonth
  monthsInRangeAux endMonth p.1 p.2 maxFutureMonths

/-- Modelled from the spec: the calendar successor of a `(year, month)`
pair. -/
def monthSucc (p : Nat × Nat) : Nat × Nat :=
  if p.2 + 1 > 12 then (p.1 + 1, 1) else (p.1, p.2 + 1)

/-- Modelled from the spec: the `k` consecutive calendar months starting at
`start`. -/
def consecutiveMonths (start : Nat × Nat) : Nat → List (Nat × Nat)
  | 0 => []
  | k + 1 => start :: consecutiveMonths (monthSucc start) k

/-- Modelled from the spec's description of `affected_months`: the
consecutive `YYYY-MM` keys from `month_key`, capped at 12 entries, stopping
before the endpoint. Spec-side definition, to be compared with
`monthsInRange`. -/
def specAffectedMonths (startMonth : String) (endMonth : Option String) : List String :=
  ((consecutiveMonths (parseMonthKey startMonth) 12).map
      (fun p => formatMonthKey p.1 p.2)).takeWhile
    (fun monthKey => !(affectedEndCond endMonth monthKey))

/-- `content[:100] + "..." if len(content) > 100 else content`
(notes_repo.py lines 653-657). -/
def contentPreview (content : String) : String :=
  if content.length > 100 then content.take 100 ++ "..." else content

/-- The `source_note` dict of `get_inheritance_impact`. -/
structure SourcePreview where
  id : String
  monthKey : String
  contentPreview : String
  deriving Repr, DecidableEq

/-- The dict returned by `get_inheritance_impact`;
`months_with_checkbox_states` is the dict in insertion order. -/
structure ImpactResult where
  sourceNote : Option SourcePreview
  affectedMonths : List String
  monthsWithCheckboxStates : List (String × Nat)
  nextCustomNoteMonth : Option String
  deriving Repr, DecidableEq

/-- Embedding of `get_checkbox_states_by_viewing_months` (notes_repo.py
lines 558-582): rows whose `viewing_month` is in the window, filtered by
`note_id` if truthy, else by `general_note_month_key` if truthy. -/
def getCheckboxStatesByViewingMonths (table : List CheckboxRow)
    (viewingMonths : List String) (noteId genKey : Option String) :
    List (String × List Bool) :=
  let rows := table.filter (fun r => viewingMonths.contains r.viewingMonth)
  let rows :=
    if pyTruthyStr noteId then rows.filter (fun r => r.noteId == noteId)
    else if pyTruthyStr genKey then rows.filter (fun r => r.generalNoteMonthKey == genKey)
    else rows
  rows.map (fun r => (r.viewingMonth, r.states))

/-- Embedding of `get_inheritance_impact` (notes_repo.py lines 586-662)
over the per-category ascending note list and the checkbox table: find the
source note (last strictly before `month_key`), the next custom note month
(first strictly after), the affected month window, and the per-month count
of checked boxes scoped to the source note's id. -/
def getInheritanceImpact (notes : List NoteR) (checkboxTable : List CheckboxRow)
    (monthKey : String) : ImpactResult :=
  match notes.reverse.find? (fun n => pyStrLt n.monthKey monthKey) with
  | none => ⟨none, [], [], none⟩
  | some sourceNote =>
    let nextCustomMonth :=
      (notes.find? (fun n => pyStrLt monthKey n.monthKey)).map (fun n => n.monthKey)
    let affectedMonths := monthsInRange monthKey nextCustomMonth 12
    let monthsWithStates :=
      getCheckboxStatesByViewingMonths checkboxTable affectedMonths (some sourceNote.id) none
    let monthsWithCheckboxData :=
      (monthsWithStates.filter (fun p => 0 < (p.2.filter (fun s => s)).length)).map
        (fun p => (p.1, (p.2.filter (fun s => s)).length))
    ⟨some ⟨sourceNote.id, sourceNote.monthKey, contentPreview sourceNote.content⟩,
      affectedMonths, monthsWithCheckboxData, nextCustomMonth⟩

/-! ## Category archival (notes_repo.py lines 318-386)

Timestamps are opaque `Nat`s; ciphertext and salt are opaque strings and
are copied, never transformed (no decryption/re-encryption occurs). -/

/-- A `Note` row as stored (encrypted). -/
structure DbNote where
  id : String
  categoryType : String
  categoryId : String
  categoryName : String
  groupId : Option String
  groupName : Option String
  monthKey : String
  contentEncrypted : String
  salt : String
  createdAt : Nat
  updatedAt : Nat
  deriving Repr, DecidableEq

/-- An `ArchivedNote` row. -/
structure DbArchivedNote where
  id : String
  categoryType : String
  categoryId : String
  categoryName : String
  groupId : Option String
  groupName : Option String
  monthKey : String
  contentEncrypted : String
  salt : String
  createdAt : Nat
  updatedAt : Nat
  archivedAt : Nat
  originalCategoryName : String
  originalGroupName : Option String
  deriving Repr, DecidableEq

/-- A `KnownCategory` row (`category_id → name`). -/
structure KnownCategoryRow where
  categoryId : String
  name : String
  deriving Repr, DecidableEq

/-- The three tables `sync_categories` touches. -/
structure NotesDb where
  notes : List DbNote
  archived : List DbArchivedNote
  known : List KnownCategoryRow
  deriving Repr, DecidableEq

/-- The `ArchivedNote(...)` constructor call in `archive_notes_for_category`
(notes_repo.py lines 330-345): every field is copied from the note;
`archived_at = now`, `original_category_name = note.category_name`,
`original_group_name = note.group_name`. -/
def toArchived (now : Nat) (n : DbNote) : DbArchivedNote :=
  ⟨n.id, n.categoryType, n.categoryId, n.categoryName, n.groupId, n.groupName,
    n.monthKey, n.contentEncrypted, n.salt, n.createdAt, n.updatedAt,
    now, n.categoryName, n.groupName⟩

/-- Embedding of `archive_notes_for_category` (lines 318-355): copy every
note of the category into `ArchivedNote`, delete the originals and the
`KnownCategory` row, return the number archived. -/
def archiveNotesForCategory (now : Nat) (db : NotesDb) (categoryId : String) :
    Nat × NotesDb :=
  let notesForCategory := db.notes.filter (fun n => n.categoryId == categoryId)
  (notesForCategory.length,
    ⟨db.notes.filter (fun n => !(n.categoryId == categoryId)),
      db.archived ++ notesForCategory.map (toArchived now),
      db.known.filter (fun k => !(k.categoryId == categoryId))⟩)

/-- One iteration of the `for category_id in deleted_ids` loop of
`sync_categories` (lines 383-384), accumulating `archived_count`. -/
def syncStep (now : Nat) (acc : Nat × NotesDb) (categoryId : String) : Nat × NotesDb :=
  let r := archiveNotesForCategory now acc.2 categoryId
  (acc.1 + r.1, r.2)

/-- Embedding of `sync_categories` (notes_repo.py lines 371-386):
`deleted_ids = known_ids - current_category_ids`, then archive each deleted
category. The Python set difference is iterated here in `known`-row order
(`category_id` is the KnownCategory primary key, so the ids are distinct
and the order is immaterial). Returns `archived_count` and the new db. -/
def syncCategories (now : Nat) (db : NotesDb) (currentCategoryIds : List String) :
    Nat × NotesDb :=
  let knownIds := db.known.map (fun k => k.categoryId)
  let deletedIds := knownIds.filter (fun i => !(currentCategoryIds.contains i))
  deletedIds.foldl (syncStep now) (0, db)

/-! ## Refunds match creation (refunds_service.py lines 275-376)

Amounts are `ℚ`; the note-block text built by `_build_refund_note` /
`_build_expected_refund_note` is not modelled (the claim concerns when the
upstream calls happen and what happens when they raise, not the note
contents), so an upstream notes update is recorded as an event carrying the
transaction id. Each `try`-block's upstream outcome is an explicit `Bool`
(`True` = the awaited call raised); the `except` clause logs and swallows,
so the outcome flags can influence nothing else. -/

/-- A `RefundsMatch` row with the fields `create_refunds_match` stores. -/
structure MatchRow where
  originalTransactionId : String
  refundTransactionId : Option String
  refundAmount : Option ℚ
  refundMerchant : Option String
  refundDate : Option String
  refundAccount : Option String
  skipped : Bool
  expectedRefund : Bool
  expectedDate : Option String
  expectedAccount : Option String
  expectedAccountId : Option String
  expectedNote : Option String
  expectedAmount : Option ℚ
  transactionData : Option String
  deriving Repr, DecidableEq

/-- The arguments of `create_match` beyond the stored row fields. -/
structure CreateMatchArgs where
  row : MatchRow
  replaceTag : Bool
  originalTagIds : Option (List String)
  originalNotes : Option String
  viewTagIds : Option (List String)
  replacementTagId : Option String
  deriving Repr, DecidableEq

/-- Observable steps of `create_match`, in order: the local DB commit (the
`with db_session()` block exits), then each attempted upstream call. -/
inductive MatchEvent where
  | dbCommit
  | updateNotes (txnId : String)
  | setTags (txnId : String) (tagIds : List String)
  deriving Repr, DecidableEq

/-- Outcome of `create_match`. -/
structure CreateMatchResult where
  success : Bool
  db : List MatchRow
  trace : List MatchEvent
  deriving Repr, DecidableEq

/-- The tag replacement computed inside `create_match` (lines 363-370):
remove the view's tags (or all original tags when `view_tag_ids` is
falsy), then append the replacement tag unless already present. -/
def replacementTags (originalTagIds : List String) (viewTagIds : Option (List String))
    (replacementTagId : Option String) : List String :=
  let tagsToRemove := match viewTagIds with
    | some l => if l.isEmpty then originalTagIds else l
    | none => originalTagIds
  let newTagIds := originalTagIds.filter (fun tid => !(tagsToRemove.contains tid))
  match replacementTagId with
  | some rid => if !(rid.isEmpty) && !(newTagIds.contains rid) then newTagIds ++ [rid]
    else newTagIds
  | none => newTagIds

/-- Embedding of `create_match` (refunds_service.py lines 275-376). The
local insert happens inside the session block (commit precedes all
upstream events); each upstream side-effect runs in a `try` whose `except`
logs and swallows, so `notesCallRaises` / `tagsCallRaises` affect nothing
observable here. -/
def createMatch (db : List MatchRow) (args : CreateMatchArgs)
    (notesCallRaises tagsCallRaises : Bool) : CreateMatchResult :=
  let oid := args.row.originalTransactionId
  match db.find? (fun m => m.originalTransactionId == oid) with
  | some _ => ⟨false, db, []⟩
  | none =>
    let db' := db ++ [args.row]
    let notesEvents :=
      if args.row.expectedRefund && args.row.expectedAmount.isSome then
        [MatchEvent.updateNotes oid]
      else if !args.row.skipped && !args.row.expectedRefund
          && args.row.refundAmount.isSome then
        [MatchEvent.updateNotes oid]
      else []
    let tagsEvents :=
      if args.replaceTag && !args.row.expectedRefund && args.originalTagIds.isSome then
        [MatchEvent.setTags oid
          (replacementTags (args.originalTagIds.getD []) args.viewTagIds
            args.replacementTagId)]
      else []
    ⟨true, db', MatchEvent.dbCommit :: (notesEvents ++ tagsEvents)⟩

/-! ## Theorems for claims C1 and C2 -/

/-- C1 counterexample: the claim states that a transaction with no tag in
`v.tag_ids` never matches `v`, even when `v.category_ids` contains the
transaction's category. On the code, a transaction with tags `{X}` and
category `C1` DOES match a view with tags `{A}` and categories `{C1}`,
while the spec's formula rejects it. -/
theorem C1_counterexample :
    txnMatchesView ⟨["X"], some "C1"⟩ ["A"] (some ["C1"]) = true ∧
    specMatchesView ⟨["X"], some "C1"⟩ ["A"] (some ["C1"]) = false := by
  decide

/-- C1 (amended): `_txn_matches_view` holds exactly when: if `v.category_ids`
is null, `v.tag_ids` is non-empty and intersects the transaction's tags; if
`v.category_ids` is non-null, the transaction's category id is in
`v.category_ids` (the tag filter is not consulted in that case). -/
theorem C1_txn_matches_view_characterization
    (txn : Txn) (tagSet : List String) (catSet : Option (List String)) :
    txnMatchesView txn tagSet catSet =
      match catSet with
      | none => (!tagSet.isEmpty) && tagSet.any (fun t => txn.tags.contains t)
      | some cs =>
        match txn.category with
        | some cid => cs.contains cid
        | none => false := by
  simp only [txnMatchesView]
  cases catSet with
  | none =>
    cases h : (!tagSet.isEmpty) && tagSet.any (fun t => txn.tags.contains t) <;> simp_all
  | some cs =>
    cases hc : txn.category with
    | none =>
      cases h : (!tagSet.isEmpty) && tagSet.any (fun t => txn.tags.contains t) <;> simp_all
    | some cid =>
      cases h : (!tagSet.isEmpty) && tagSet.any (fun t => txn.tags.contains t) <;>
        cases h2 : cs.contains cid <;> simp_all

/-- C2 counterexample: enabling auto sync on a fresh scheduler registers a
single job (not two), and its interval is 5 minutes in foreground mode —
there is no 60-minute full-sync / 15-minute light-sync pair. -/
theorem C2_counterexample :
    (enableAutoSync true []).2.length = 1 ∧
    (enableAutoSync true []).2.length ≠ 2 ∧
    (enableAutoSync true []).2 = [⟨SYNC_JOB_ID, 5, 1, true⟩] := by
  decide

/-- C2 (amended): when automatic syncing is enabled, the scheduler registers
exactly one periodic job (id `automated_sync`) with `max_instances = 1` and
`coalesce = true`, firing every 5 minutes in foreground mode and every 60
minutes in background mode; jobs with other ids are untouched. -/
theorem C2_scheduler_single_job (isForeground : Bool) (jobs : List Job) :
    (enableAutoSync isForeground jobs).1 = (if isForeground then 5 else 60) ∧
    (enableAutoSync isForeground jobs).2.filter (fun j => j.id == SYNC_JOB_ID) =
      [⟨SYNC_JOB_ID, if isForeground then 5 else 60, 1, true⟩] ∧
    (enableAutoSync isForeground jobs).2.filter (fun j => !(j.id == SYNC_JOB_ID)) =
      jobs.filter (fun j => !(j.id == SYNC_JOB_ID)) := by
  refine ⟨by cases isForeground <;> rfl, ?_, ?_⟩ <;>
    · cases isForeground <;>
      · simp [enableAutoSync, FOREGROUND_INTERVAL_MINUTES, BACKGROUND_INTERVAL_MINUTES,
          List.filter_append, List.filter_filter]

/-! ## Helper lemmas -/

/-- `pyStrLt` agrees with Lean's `String` order. -/
theorem pyStrLt_iff (a b : String) : pyStrLt a b = true ↔ a < b := by
  simp [pyStrLt, String.lt_iff_toList_lt]

/-- `pyStrLe` agrees with Lean's `String` order. -/
theorem pyStrLe_iff (a b : String) : pyStrLe a b = true ↔ a ≤ b := by
  simp [pyStrLe, String.le_iff_toList_le]

/-- `pyStrLt` is `false` exactly on non-strictly-smaller pairs. -/
theorem pyStrLt_eq_false_iff (a b : String) : pyStrLt a b = false ↔ ¬ a < b := by
  simp [pyStrLt, String.lt_iff_toList_lt]

/-- `pyStrLe` is `false` exactly on non-smaller pairs. -/
theorem pyStrLe_eq_false_iff (a b : String) : pyStrLe a b = false ↔ ¬ a ≤ b := by
  simp [pyStrLe, String.le_iff_toList_le]

/-- `find?` after `replaceFirst` with a predicate-preserving update finds
the updated row. -/
theorem replaceFirst_find? {α : Type} (p : α → Bool) (f : α → α)
    (hf : ∀ a, p a = true → p (f a) = true) (l : List α) :
    (replaceFirst p f l).find? p = (l.find? p).map f := by
  induction l with
  | nil => rfl
  | cons x xs ih =>
    by_cases hx : p x = true
    · simp [replaceFirst, hx, hf x hx]
    · have hx' : p x = false := by simpa using hx
      simp [replaceFirst, hx', ih]

/-- Length of the extended-and-set checkbox array. -/
theorem setCheckboxIndex_length (s : List Bool) (i : Nat) (b : Bool) :
    (setCheckboxIndex s i b).length = max s.length (i + 1) := by
  simp [setCheckboxIndex]
  omega

/-- The updated index holds the new value. -/
theorem setCheckboxIndex_get_self (s : List Bool) (i : Nat) (b : Bool) :
    (setCheckboxIndex s i b)[i]? = some b := by
  have h : i < (s ++ List.replicate (i + 1 - s.length) false).length := by
    simp; omega
  simp [setCheckboxIndex, List.getElem?_set_self h]

/-- Indices present in the prior array, other than the target, keep their
value. -/
theorem setCheckboxIndex_get_lt (s : List Bool) (i : Nat) (b : Bool) (j : Nat)
    (hj : j < s.length) (hne : j ≠ i) :
    (setCheckboxIndex s i b)[j]? = s[j]? := by
  rw [setCheckboxIndex, List.getElem?_set_ne (fun h => hne h.symm),
    List.getElem?_append_left hj]

/-- Newly added indices, other than the target, are `false`. -/
theorem setCheckboxIndex_get_new (s : List Bool) (i : Nat) (b : Bool) (j : Nat)
    (h1 : s.length ≤ j) (hne : j ≠ i) (h2 : j < (setCheckboxIndex s i b).length) :
    (setCheckboxIndex s i b)[j]? = some false := by
  rw [setCheckboxIndex_length] at h2
  rw [setCheckboxIndex, List.getElem?_set_ne (fun h => hne h.symm),
    List.getElem?_append_right h1, List.getElem?_replicate]
  have : j - s.length < i + 1 - s.length := by omega
  simp [this]

/-- What `find?` returns on a `Pairwise`-ordered list relates to every
other satisfying element. -/
theorem find?_first_of_pairwise {α : Type} {R : α → α → Prop} {l : List α}
    (hl : l.Pairwise R) {p : α → Bool} {a : α} (ha : l.find? p = some a) :
    ∀ b ∈ l, p b = true → b = a ∨ R a b := by
  induction l with
  | nil => simp at ha
  | cons x xs ih =>
    rcases List.pairwise_cons.mp hl with ⟨hx, hxs⟩
    by_cases hpx : p x = true
    · rw [List.find?_cons_of_pos _ hpx] at ha
      obtain rfl : x = a := by injection ha
      intro b hb hpb
      rcases List.mem_cons.mp hb with rfl | hb
      · exact Or.inl rfl
      · exact Or.inr (hx b hb)
    · rw [List.find?_cons_of_neg _ hpx] at ha
      intro b hb hpb
      rcases List.mem_cons.mp hb with rfl | hb
      · exact absurd hpb hpx
      · exact ih hxs ha b hb hpb

/-- On a `Pairwise`-ordered list, `find?` returns a satisfying member when
everything related-before it fails the predicate. -/
theorem find?_eq_self_of_pairwise {α : Type} {R : α → α → Prop} {l : List α}
    (hl : l.Pairwise R) {p : α → Bool} {n : α} (hn : n ∈ l) (hpn : p n = true)
    (hearlier : ∀ b, R b n → p b = false) :
    l.find? p = some n := by
  induction l with
  | nil => simp at hn
  | cons x xs ih =>
    rcases List.pairwise_cons.mp hl with ⟨hx, hxs⟩
    by_cases hpx : p x = true
    · rw [List.find?_cons_of_pos _ hpx]
      rcases List.mem_cons.mp hn with rfl | hn
      · rfl
      · have := hearlier x (hx n hn)
        rw [hpx] at this
        exact absurd this (by simp)
    · rw [List.find?_cons_of_neg _ hpx]
      rcases List.mem_cons.mp hn with rfl | hn
      · exact absurd hpn hpx
      · exact ih hxs hn

/-! ## Claim C3: effective note resolution -/

/-- C3: on the per-category note list (ascending, distinct months),
`get_effective_note` returns the stored note with the largest
`month_key ≤ target_month`, annotated with `source_month` equal to that
month and `is_inherited = (source_month ≠ target_month)`; it returns `None`
when no stored note is at or before `target_month`; and at a stored note's
own month it returns that note uninherited. -/
theorem C3_get_effective_note (notes : List NoteR) (targetMonth : String)
    (hs : notes.Pairwise (fun a b => a.monthKey < b.monthKey)) :
    (∀ r, getEffectiveNote notes targetMonth = some r →
      r.note ∈ notes ∧ r.note.monthKey ≤ targetMonth ∧
      r.sourceMonth = r.note.monthKey ∧
      (r.isInherited = true ↔ r.sourceMonth ≠ targetMonth) ∧
      ∀ n ∈ notes, n.monthKey ≤ targetMonth → n.monthKey ≤ r.note.monthKey) ∧
    (getEffectiveNote notes targetMonth = none ↔
      ∀ n ∈ notes, ¬ n.monthKey ≤ targetMonth) ∧
    (∀ n ∈ notes, getEffectiveNote notes n.monthKey = some ⟨n, n.monthKey, false⟩) := by
  have hrev : notes.reverse.Pairwise (fun a b => b.monthKey < a.monthKey) :=
    List.pairwise_reverse.mpr hs
  refine ⟨?_, ?_, ?_⟩
  · intro r hr
    obtain ⟨a, ha, rfl⟩ : ∃ a,
        notes.reverse.find? (fun n => pyStrLe n.monthKey targetMonth) = some a ∧
          r = ⟨a, a.monthKey, a.monthKey != targetMonth⟩ := by
      unfold getEffectiveNote at hr
      cases h : notes.reverse.find? (fun n => pyStrLe n.monthKey targetMonth) with
      | none => rw [h] at hr; simp at hr
      | some a => rw [h] at hr; exact ⟨a, rfl, by simpa using hr.symm⟩
    have hmem : a ∈ notes := List.mem_reverse.mp (List.mem_of_find?_eq_some ha)
    have hp := List.find?_some ha
    simp only [] at hp
    have hle : a.monthKey ≤ targetMonth := (pyStrLe_iff _ _).mp hp
    refine ⟨hmem, hle, rfl, by simp [bne_iff_ne], ?_⟩
    intro n hn hnle
    have := find?_first_of_pairwise hrev ha n (List.mem_reverse.mpr hn)
      ((pyStrLe_iff _ _).mpr hnle)
    rcases this with rfl | hlt
    · exact le_refl _
    · exact le_of_lt hlt
  · unfold getEffectiveNote
    cases h : notes.reverse.find? (fun n => pyStrLe n.monthKey targetMonth) with
    | none =>
      simp only [Option.map_none', true_iff]
      have := List.find?_eq_none.mp h
      intro n hn hle
      exact this n (List.mem_reverse.mpr hn) ((pyStrLe_iff _ _).mpr hle)
    | some a =>
      simp only [Option.map_some']
      constructor
      · intro hfalse; exact absurd hfalse (by simp)
      · intro hall
        have hmem : a ∈ notes := List.mem_reverse.mp (List.mem_of_find?_eq_some h)
        have hp := List.find?_some h
        simp only [] at hp
        exact absurd ((pyStrLe_iff _ _).mp hp) (hall a hmem)
  · intro n hn
    have hfind : notes.reverse.find? (fun m => pyStrLe m.monthKey n.monthKey) = some n := by
      refine find?_eq_self_of_pairwise hrev (List.mem_reverse.mpr hn)
        ((pyStrLe_iff _ _).mpr (le_refl _)) ?_
      intro b hb
      exact (pyStrLe_eq_false_iff _ _).mpr (not_le.mpr hb)
    unfold getEffectiveNote
    rw [hfind]
    simp

/-- C3 witness: with notes in January and June 2025, the June note resolves
to itself uninherited, and January is maximal among notes at or before
March. -/
theorem C3_get_effective_note_witness :
    getEffectiveNote [⟨"a", "2025-01", "jan"⟩, ⟨"b", "2025-06", "jun"⟩] "2025-06" =
      some ⟨⟨"b", "2025-06", "jun"⟩, "2025-06", false⟩ ∧
    (∀ n ∈ [NoteR.mk "a" "2025-01" "jan", NoteR.mk "b" "2025-06" "jun"],
      n.monthKey ≤ "2025-03" → n.monthKey ≤ "2025-01") := by
  have hpw : List.Pairwise (fun a b : NoteR => a.monthKey < b.monthKey)
      [⟨"a", "2025-01", "jan"⟩, ⟨"b", "2025-06", "jun"⟩] := by
    refine List.pairwise_cons.mpr ⟨?_, List.pairwise_cons.mpr ⟨?_, List.Pairwise.nil⟩⟩
    · intro b hb
      rw [List.mem_singleton] at hb
      subst hb
      rw [String.lt_iff_toList_lt]
      decide
    · intro b hb
      simp at hb
  have h := C3_get_effective_note
    [⟨"a", "2025-01", "jan"⟩, ⟨"b", "2025-06", "jun"⟩] "2025-03" hpw
  have h6 := C3_get_effective_note
    [⟨"a", "2025-01", "jan"⟩, ⟨"b", "2025-06", "jun"⟩] "2025-06" hpw
  refine ⟨h6.2.2 ⟨"b", "2025-06", "jun"⟩ (by simp), ?_⟩
  have := (h.1 ⟨⟨"a", "2025-01", "jan"⟩, "2025-01", true⟩ (by decide)).2.2.2.2
  simpa using this

/-- When recalculation is needed, `calculate_frozen_target` computes via
`_calculate_target` and persists the new fingerprint. -/
theorem calculateFrozenTarget_recalc (inp : FrozenInputs) (stored : Option StoredTarget)
    (h : needsRecalc stored inp = true) :
    (calculateFrozenTarget inp stored).1.frozenTarget =
      calculateTarget inp.amount inp.frequencyMonths inp.monthsUntilDue inp.rolloverAmount ∧
    (calculateFrozenTarget inp stored).1.wasRecalculated = true ∧
    (calculateFrozenTarget inp stored).2 =
      some ⟨calculateTarget inp.amount inp.frequencyMonths inp.monthsUntilDue
          inp.rolloverAmount, inp.currentMonth, inp.rolloverAmount, inp.amount,
        inp.frequencyMonths, some inp.rolloverAmount, inp.nextDueDate⟩ := by
  unfold calculateFrozenTarget
  cases stored with
  | none => simp [h]
  | some st => simp [h]

/-- When the fingerprint is valid, `calculate_frozen_target` returns the
stored target untouched. -/
theorem calculateFrozenTarget_cached (inp : FrozenInputs) (st : StoredTarget)
    (h : needsRecalc (some st) inp = false) :
    (calculateFrozenTarget inp (some st)).1.frozenTarget = st.frozenMonthlyTarget ∧
    (calculateFrozenTarget inp (some st)).1.wasRecalculated = false ∧
    (calculateFrozenTarget inp (some st)).2 = some st := by
  unfold calculateFrozenTarget
  simp [h]

/-- The fingerprint persisted by a recalculation validates against the same
inputs. -/
theorem needsRecalc_after_store (inp : FrozenInputs) (t : ℚ) :
    needsRecalc (some ⟨t, inp.currentMonth, inp.rolloverAmount, inp.amount,
      inp.frequencyMonths, some inp.rolloverAmount, inp.nextDueDate⟩) inp = false := by
  simp [needsRecalc]

/-- `needs_recalc` is false exactly when the stored fingerprint matches the
inputs and the stored month is the current month. -/
theorem needsRecalc_eq_false_iff (stored : Option StoredTarget) (inp : FrozenInputs) :
    needsRecalc stored inp = false ↔
      ∃ st, stored = some st ∧ st.targetMonth = inp.currentMonth ∧
        st.frozenAmount = inp.amount ∧ st.frozenFrequencyMonths = inp.frequencyMonths ∧
        st.frozenRolloverAmount = some inp.rolloverAmount ∧
        st.frozenNextDueDate = inp.nextDueDate := by
  cases stored with
  | none => simp [needsRecalc]
  | some st => simp [needsRecalc, and_assoc]

/-! ## Claim C4: frozen target reuse -/

/-- C4: `calculate_frozen_target` reuses the stored target (returning it
with `was_recalculated = false`) iff the stored fingerprint equals the
current inputs and the stored `target_month` is the current month;
otherwise it recomputes and persists; and a second call in the same month
with unchanged inputs returns the same `frozen_target` with
`was_recalculated = false`. -/
theorem C4_frozen_target_fingerprint (inp : FrozenInputs) (stored : Option StoredTarget) :
    ((calculateFrozenTarget inp stored).1.wasRecalculated = false ↔
      ∃ st, stored = some st ∧ st.targetMonth = inp.currentMonth ∧
        st.frozenAmount = inp.amount ∧ st.frozenFrequencyMonths = inp.frequencyMonths ∧
        st.frozenRolloverAmount = some inp.rolloverAmount ∧
        st.frozenNextDueDate = inp.nextDueDate) ∧
    (∀ st, stored = some st → (calculateFrozenTarget inp stored).1.wasRecalculated = false →
      (calculateFrozenTarget inp stored).1.frozenTarget = st.frozenMonthlyTarget ∧
      (calculateFrozenTarget inp stored).2 = stored) ∧
    ((calculateFrozenTarget inp stored).1.wasRecalculated = true →
      (calculateFrozenTarget inp stored).1.frozenTarget =
        calculateTarget inp.amount inp.frequencyMonths inp.monthsUntilDue
          inp.rolloverAmount ∧
      (calculateFrozenTarget inp stored).2 =
        some ⟨calculateTarget inp.amount inp.frequencyMonths inp.monthsUntilDue
            inp.rolloverAmount, inp.currentMonth, inp.rolloverAmount, inp.amount,
          inp.frequencyMonths, some inp.rolloverAmount, inp.nextDueDate⟩) ∧
    ((calculateFrozenTarget inp (calculateFrozenTarget inp stored).2).1.frozenTarget =
      (calculateFrozenTarget inp stored).1.frozenTarget ∧
    (calculateFrozenTarget inp (calculateFrozenTarget inp stored).2).1.wasRecalculated =
      false) := by
  cases hn : needsRecalc stored inp with
  | false =>
    obtain ⟨st, rfl, -⟩ := (needsRecalc_eq_false_iff stored inp).mp hn
    obtain ⟨h1, h2, h3⟩ := calculateFrozenTarget_cached inp st hn
    refine ⟨?_, ?_, ?_, ?_⟩
    · rw [h2]
      simp only [true_iff]
      exact (needsRecalc_eq_false_iff _ inp).mp hn
    · intro st' hst' _
      obtain rfl : st = st' := by injection hst'
      exact ⟨h1, h3⟩
    · intro habs
      rw [h2] at habs
      exact absurd habs (by simp)
    · rw [h3]
      obtain ⟨h1', h2', _⟩ := calculateFrozenTarget_cached inp st hn
      exact ⟨h1'.trans h1.symm, h2'⟩
  | true =>
    obtain ⟨h1, h2, h3⟩ := calculateFrozenTarget_recalc inp stored hn
    refine ⟨?_, ?_, ?_, ?_⟩
    · rw [h2]
      refine iff_of_false (by simp) ?_
      intro hex
      exact absurd ((needsRecalc_eq_false_iff stored inp).mpr hex) (by simp [hn])
    · intro st hst hfalse
      rw [h2] at hfalse
      exact absurd hfalse (by simp)
    · intro _
      exact ⟨h1, h3⟩
    · rw [h3]
      obtain ⟨h1', h2', _⟩ := calculateFrozenTarget_cached inp _ (needsRecalc_after_store inp _)
      constructor
      · rw [h1', h1]
      · exact h2'

/-- C4 witness: seeding `amount=600, frequency=12, rollover=100,
months_until_due=10` at `2025-03` with no stored target recalculates to a
frozen target of 50, persists the fingerprint, and a second identical call
reuses it. -/
theorem C4_frozen_target_fingerprint_witness :
    (calculateFrozenTarget ⟨600, 12, 10, 100, 0, some "2025-12-15", "2025-03"⟩ none).1.frozenTarget = 50 ∧
    (calculateFrozenTarget ⟨600, 12, 10, 100, 0, some "2025-12-15", "2025-03"⟩ none).1.wasRecalculated = true ∧
    (calculateFrozenTarget ⟨600, 12, 10, 100, 0, some "2025-12-15", "2025-03"⟩
        (calculateFrozenTarget ⟨600, 12, 10, 100, 0, some "2025-12-15", "2025-03"⟩ none).2).1.frozenTarget = 50 ∧
    (calculateFrozenTarget ⟨600, 12, 10, 100, 0, some "2025-12-15", "2025-03"⟩
        (calculateFrozenTarget ⟨600, 12, 10, 100, 0, some "2025-12-15", "2025-03"⟩ none).2).1.wasRecalculated = false := by
  have h := C4_frozen_target_fingerprint ⟨600, 12, 10, 100, 0, some "2025-12-15", "2025-03"⟩ none
  have hwas : (calculateFrozenTarget
      ⟨600, 12, 10, 100, 0, some "2025-12-15", "2025-03"⟩ none).1.wasRecalculated = true := by
    decide
  have hrec := h.2.2.1 hwas
  have h50 : calculateTarget (600 : ℚ) 12 10 100 = 50 := by
    norm_num [calculateTarget, roundMonthlyRate]
  exact ⟨hrec.1.trans h50, hwas, h.2.2.2.1.trans (hrec.1.trans h50), h.2.2.2.2⟩

/-- Membership after `replaceFirst`: either an untouched original or the
image of an original. -/
theorem mem_replaceFirst {α : Type} {p : α → Bool} {f : α → α} {b : α} :
    ∀ {l : List α}, b ∈ replaceFirst p f l → b ∈ l ∨ ∃ a, a ∈ l ∧ b = f a := by
  intro l
  induction l with
  | nil => intro h; simp [replaceFirst] at h
  | cons x xs ih =>
    intro hb
    by_cases hx : p x = true
    · simp only [replaceFirst, if_pos hx, List.mem_cons] at hb
      rcases hb with rfl | hb
      · exact Or.inr ⟨x, List.mem_cons_self x xs, rfl⟩
      · exact Or.inl (List.mem_cons_of_mem _ hb)
    · simp only [replaceFirst, if_neg hx, List.mem_cons] at hb
      rcases hb with rfl | hb
      · exact Or.inl (List.mem_cons_self b xs)
      · rcases ih hb with h | ⟨a, ha, rfl⟩
        · exact Or.inl (List.mem_cons_of_mem _ h)
        · exact Or.inr ⟨a, List.mem_cons_of_mem _ ha, rfl⟩

/-- `replaceFirst` with an ip-preserving update keeps ips pairwise
distinct. -/
theorem uniqueIps_replaceFirst {p : IpRow → Bool} {f : IpRow → IpRow}
    (hf : ∀ r, (f r).ipAddress = r.ipAddress) :
    ∀ {t : List IpRow}, UniqueIps t → UniqueIps (replaceFirst p f t) := by
  intro t
  induction t with
  | nil => intro h; exact h
  | cons x xs ih =>
    intro hu
    rcases List.pairwise_cons.mp hu with ⟨hx, hxs⟩
    by_cases hpx : p x = true
    · unfold replaceFirst
      rw [if_pos hpx]
      exact List.pairwise_cons.mpr ⟨fun b hb => by rw [hf x]; exact hx b hb, hxs⟩
    · unfold replaceFirst
      rw [if_neg hpx]
      refine List.pairwise_cons.mpr ⟨?_, ih hxs⟩
      intro b hb
      rcases mem_replaceFirst hb with h | ⟨a, ha, rfl⟩
      · exact hx b h
      · rw [hf a]; exact hx a ha

/-- In a table with pairwise-distinct ips, two members with the same ip are
the same row. -/
theorem uniqueIps_eq_of_mem {t : List IpRow} (hu : UniqueIps t) {r1 r2 : IpRow}
    (h1 : r1 ∈ t) (h2 : r2 ∈ t) (hk : r1.ipAddress = r2.ipAddress) : r1 = r2 := by
  induction t with
  | nil => simp at h1
  | cons x xs ih =>
    rcases List.pairwise_cons.mp hu with ⟨hx, hxs⟩
    rcases List.mem_cons.mp h1 with rfl | h1'
    · rcases List.mem_cons.mp h2 with rfl | h2'
      · rfl
      · exact absurd hk (hx r2 h2')
    · rcases List.mem_cons.mp h2 with rfl | h2'
      · exact absurd hk.symm (hx r1 h1')
      · exact ih hxs h1' h2'

/-- What `record_failed_remote_unlock` leaves in the table for the given
ip, and what it returns: the attempt count goes up by exactly one, and
`locked_until` is set exactly when the new count reaches the threshold. -/
theorem recordFailed_characterization (now : Nat) (ipAddress : Option String)
    (table : List IpRow) (hip : pyTruthyStr ipAddress = true) :
    (recordFailedRemoteUnlock now ipAddress table).2.find?
        (fun r => r.ipAddress == ipAddress.getD "") =
      some ⟨ipAddress.getD "", priorFailedAttempts table (ipAddress.getD "") + 1,
        if LOCKOUT_THRESHOLD ≤ priorFailedAttempts table (ipAddress.getD "") + 1 then
          some (now + LOCKOUT_DURATION_MINUTES * 60)
        else none, now⟩ ∧
    (recordFailedRemoteUnlock now ipAddress table).1 =
      decide (LOCKOUT_THRESHOLD ≤ priorFailedAttempts table (ipAddress.getD "") + 1) := by
  unfold recordFailedRemoteUnlock priorFailedAttempts
  rw [hip]
  cases hfind : table.find? (fun r => r.ipAddress == ipAddress.getD "") with
  | some r =>
    have hrf := replaceFirst_find? (fun x => x.ipAddress == ipAddress.getD "")
      (fun r' => ⟨r'.ipAddress, r.failedAttempts + 1,
        if LOCKOUT_THRESHOLD ≤ r.failedAttempts + 1 then
          some (now + LOCKOUT_DURATION_MINUTES * 60)
        else none, now⟩)
      (fun a ha => ha) table
    rw [hfind] at hrf
    have hip_eq : r.ipAddress = ipAddress.getD "" := by
      have := List.find?_some hfind
      simp only [] at this
      exact eq_of_beq this
    simp [hfind, hrf, hip_eq]
  | none =>
    simp [hfind, List.find?_append]

/-- `record_failed_remote_unlock` keeps ips pairwise distinct. -/
theorem uniqueIps_record (now : Nat) (ipAddress : Option String) (table : List IpRow)
    (hu : UniqueIps table) : UniqueIps (recordFailedRemoteUnlock now ipAddress table).2 := by
  unfold recordFailedRemoteUnlock
  cases hip : pyTruthyStr ipAddress with
  | false => exact hu
  | true =>
    cases hfind : table.find? (fun r => r.ipAddress == ipAddress.getD "") with
    | some r =>
      simp only [hfind, Bool.not_true, Bool.false_eq_true, if_false,
        Option.isSome_some, if_true]
      refine uniqueIps_replaceFirst ?_ hu
      intro r'
      rfl
    | none =>
      simp only [hfind, Bool.not_true, Bool.false_eq_true, if_false,
        Option.isSome_none]
      rw [UniqueIps, List.pairwise_append]
      refine ⟨hu, List.pairwise_singleton _ _, ?_⟩
      intro a ha b hb
      rw [List.mem_singleton] at hb
      subst hb
      have := List.find?_eq_none.mp hfind a ha
      simpa using this


/-- `is_ip_locked_out` keeps ips pairwise distinct. -/
theorem uniqueIps_isIpLockedOut (now : Nat) (ipAddress : Option String)
    (table : List IpRow) (hu : UniqueIps table) :
    UniqueIps (isIpLockedOut now ipAddress table).2 := by
  unfold isIpLockedOut
  split
  · exact hu
  · dsimp only
    split
    · exact hu
    · split
      · exact hu
      · split
        · exact hu
        · exact hu.sublist (List.filter_sublist _)

/-- `clear_ip_lockout` keeps ips pairwise distinct. -/
theorem uniqueIps_clear (ipAddress : Option String) (table : List IpRow)
    (hu : UniqueIps table) : UniqueIps (clearIpLockout ipAddress table) := by
  unfold clearIpLockout
  split
  · exact hu
  · exact hu.sublist (List.filter_sublist _)

/-- Consecutive failures from a clean state: after `k ≥ 1` failures the row
holds exactly `k` attempts, and `locked_until` is set iff `k` has reached
the threshold — the lockout transition happens at the 10th failure. -/
theorem iterateFailures_attempts (now : Nat) (ipAddress : Option String)
    (table : List IpRow) (hip : pyTruthyStr ipAddress = true)
    (hclean : table.find? (fun r => r.ipAddress == ipAddress.getD "") = none) :
    ∀ k, 1 ≤ k →
      (iterateFailures now ipAddress table k).find?
          (fun r => r.ipAddress == ipAddress.getD "") =
        some ⟨ipAddress.getD "", k,
          if LOCKOUT_THRESHOLD ≤ k then some (now + LOCKOUT_DURATION_MINUTES * 60)
          else none, now⟩ := by
  intro k
  induction k with
  | zero => intro h; exact absurd h (by omega)
  | succ n ih =>
    intro _
    have hchar := recordFailed_characterization now ipAddress
      (iterateFailures now ipAddress table n) hip
    by_cases hn : 1 ≤ n
    · have hfind := ih hn
      have hprior : priorFailedAttempts (iterateFailures now ipAddress table n)
          (ipAddress.getD "") = n := by
        unfold priorFailedAttempts
        rw [hfind]
      simp only [iterateFailures]
      rw [hchar.1, hprior]
    · have hn0 : n = 0 := by omega
      subst hn0
      have hchar0 := recordFailed_characterization now ipAddress table hip
      have hprior0 : priorFailedAttempts table (ipAddress.getD "") = 0 := by
        simp only [priorFailedAttempts, hclean]
      simp only [iterateFailures]
      rw [hchar0.1, hprior0]

/-- C5: the `ip_lockouts` table keeps at most one row per ip through every
operation; `record_failed_remote_unlock` increments the count by exactly 1
and sets `locked_until = now + 15 min` precisely when the new count reaches
the threshold of 10 (so `k` consecutive failures from a clean state leave
count `k`, locked iff `k ≥ 10`, the transition happening at the 10th);
`is_ip_locked_out` is true iff a row with `now < locked_until` exists,
deletes the row when the lockout has expired; `clear_ip_lockout` removes
the row. -/
theorem C5_ip_lockout_state_machine (now : Nat) (ipAddress : Option String)
    (table : List IpRow) (hu : UniqueIps table) (hip : pyTruthyStr ipAddress = true) :
    UniqueIps (recordFailedRemoteUnlock now ipAddress table).2 ∧
    UniqueIps (isIpLockedOut now ipAddress table).2 ∧
    UniqueIps (clearIpLockout ipAddress table) ∧
    (recordFailedRemoteUnlock now ipAddress table).2.find?
        (fun r => r.ipAddress == ipAddress.getD "") =
      some ⟨ipAddress.getD "", priorFailedAttempts table (ipAddress.getD "") + 1,
        if LOCKOUT_THRESHOLD ≤ priorFailedAttempts table (ipAddress.getD "") + 1 then
          some (now + LOCKOUT_DURATION_MINUTES * 60)
        else none, now⟩ ∧
    (recordFailedRemoteUnlock now ipAddress table).1 =
      decide (LOCKOUT_THRESHOLD ≤ priorFailedAttempts table (ipAddress.getD "") + 1) ∧
    ((isIpLockedOut now ipAddress table).1 = true ↔
      ∃ r ∈ table, r.ipAddress = ipAddress.getD "" ∧
        ∃ lu, r.lockedUntil = some lu ∧ now < lu) ∧
    (∀ r ∈ table, r.ipAddress = ipAddress.getD "" → ∀ lu, r.lockedUntil = some lu →
      lu ≤ now →
      isIpLockedOut now ipAddress table =
        (false, table.filter (fun r' => !(r'.ipAddress == ipAddress.getD "")))) ∧
    (clearIpLockout ipAddress table).find?
      (fun r => r.ipAddress == ipAddress.getD "") = none ∧
    (table.find? (fun r => r.ipAddress == ipAddress.getD "") = none →
      ∀ k, 1 ≤ k →
        (iterateFailures now ipAddress table k).find?
            (fun r => r.ipAddress == ipAddress.getD "") =
          some ⟨ipAddress.getD "", k,
            if LOCKOUT_THRESHOLD ≤ k then some (now + LOCKOUT_DURATION_MINUTES * 60)
            else none, now⟩) := by
  have hchar := recordFailed_characterization now ipAddress table hip
  refine ⟨uniqueIps_record now ipAddress table hu,
    uniqueIps_isIpLockedOut now ipAddress table hu,
    uniqueIps_clear ipAddress table hu,
    hchar.1, hchar.2, ?_, ?_, ?_,
    fun hclean => iterateFailures_attempts now ipAddress table hip hclean⟩
  · unfold isIpLockedOut
    rw [hip]
    simp only [Bool.not_true, Bool.false_eq_true, if_false]
    split
    · rename_i hfind
      refine iff_of_false (by simp) ?_
      rintro ⟨r, hr, hipeq, lu, hlu, hnl⟩
      have := List.find?_eq_none.mp hfind r hr
      simp [hipeq] at this
    · rename_i r hfind
      have hip_eq : r.ipAddress = ipAddress.getD "" := by
        have := List.find?_some hfind
        simp only [] at this
        exact eq_of_beq this
      have hmem : r ∈ table := List.mem_of_find?_eq_some hfind
      split
      · rename_i hlu
        refine iff_of_false (by simp) ?_
        rintro ⟨r', hr', hipeq', lu, hlu', hnl⟩
        have heq : r' = r := uniqueIps_eq_of_mem hu hr' hmem (hipeq'.trans hip_eq.symm)
        subst heq
        rw [hlu] at hlu'
        exact Option.noConfusion hlu'
      · rename_i lu hlu
        split
        · rename_i hlt
          exact iff_of_true rfl ⟨r, hmem, hip_eq, lu, hlu, hlt⟩
        · rename_i hlt
          refine iff_of_false (by simp) ?_
          rintro ⟨r', hr', hipeq', lu', hlu', hnl⟩
          have heq : r' = r := uniqueIps_eq_of_mem hu hr' hmem (hipeq'.trans hip_eq.symm)
          subst heq
          rw [hlu] at hlu'
          obtain rfl : lu = lu' := by injection hlu'
          exact hlt hnl
  · intro r hr hipeq lu hlu hle
    have hsat : (fun x : IpRow => x.ipAddress == ipAddress.getD "") r = true := by
      simp [hipeq]
    have hsome : (table.find? (fun x => x.ipAddress == ipAddress.getD "")).isSome :=
      List.find?_isSome.mpr ⟨r, hr, hsat⟩
    obtain ⟨r'', hfind⟩ := Option.isSome_iff_exists.mp hsome
    have hip_eq'' : r''.ipAddress = ipAddress.getD "" := by
      have := List.find?_some hfind
      simp only [] at this
      exact eq_of_beq this
    have heq : r'' = r := uniqueIps_eq_of_mem hu (List.mem_of_find?_eq_some hfind) hr
      (hip_eq''.trans hipeq.symm)
    subst heq
    unfold isIpLockedOut
    rw [hip]
    simp only [Bool.not_true, Bool.false_eq_true, if_false]
    rw [hfind]
    dsimp only
    rw [hlu]
    dsimp only
    rw [if_neg (by omega)]
  · unfold clearIpLockout
    rw [hip]
    simp only [Bool.not_true, Bool.false_eq_true, if_false]
    rw [List.find?_eq_none]
    intro x hx
    have := (List.mem_filter.mp hx).2
    simpa using this

/-- C5 witness: from an empty table and ip `X` at time 0, 9 failures leave
the row unlocked with count 9, the 10th sets count 10 and
`locked_until = 900`; `is_ip_locked_out` reports true at time 0 on that row
and, at time 901, deletes the expired row and reports false; clearing
removes the row. -/
theorem C5_ip_lockout_state_machine_witness :
    (iterateFailures 0 (some "X") [] 9).find? (fun r => r.ipAddress == "X") =
      some ⟨"X", 9, none, 0⟩ ∧
    (iterateFailures 0 (some "X") [] 10).find? (fun r => r.ipAddress == "X") =
      some ⟨"X", 10, some 900, 0⟩ ∧
    (isIpLockedOut 0 (some "X") [⟨"X", 10, some 900, 0⟩]).1 = true ∧
    isIpLockedOut 901 (some "X") [⟨"X", 10, some 900, 0⟩] = (false, []) ∧
    (clearIpLockout (some "X") [⟨"X", 10, some 900, 0⟩]).find?
      (fun r => r.ipAddress == "X") = none := by
  have h := C5_ip_lockout_state_machine 0 (some "X") ([] : List IpRow)
    List.Pairwise.nil (by decide)
  have h9 := h.2.2.2.2.2.2.2.2 rfl 9 (by omega)
  have h10 := h.2.2.2.2.2.2.2.2 rfl 10 (by omega)
  have hexp := C5_ip_lockout_state_machine 901 (some "X") [⟨"X", 10, some 900, 0⟩]
    (List.pairwise_singleton _ _) (by decide)
  have hlive := C5_ip_lockout_state_machine 0 (some "X") [⟨"X", 10, some 900, 0⟩]
    (List.pairwise_singleton _ _) (by decide)
  refine ⟨by simpa [LOCKOUT_THRESHOLD, LOCKOUT_DURATION_MINUTES] using h9,
    by simpa [LOCKOUT_THRESHOLD, LOCKOUT_DURATION_MINUTES] using h10, ?_, ?_,
    hexp.2.2.2.2.2.2.2.1⟩
  · exact hlive.2.2.2.2.2.1.mpr
      ⟨⟨"X", 10, some 900, 0⟩, List.mem_singleton_self _, rfl, 900, rfl, by omega⟩
  · have := hexp.2.2.2.2.2.2.1 ⟨"X", 10, some 900, 0⟩ (List.mem_singleton_self _)
      rfl 900 rfl (by omega)
    simpa using this

/-- C9: `update_checkbox_state` returns and stores an array of length
`max(len(prior), i+1)` whose index `i` is the new value, whose other
pre-existing indices are unchanged, and whose newly added indices are
`false`. -/
theorem C9_update_checkbox_state (table : List CheckboxRow) (viewingMonth : String)
    (i : Nat) (b : Bool) (noteId genKey : Option String) :
    (updateCheckboxState table viewingMonth i b noteId genKey).1 =
      setCheckboxIndex (priorCheckboxStates table noteId genKey viewingMonth) i b ∧
    (updateCheckboxState table viewingMonth i b noteId genKey).1.length =
      max (priorCheckboxStates table noteId genKey viewingMonth).length (i + 1) ∧
    (updateCheckboxState table viewingMonth i b noteId genKey).1[i]? = some b ∧
    (∀ j, j < (priorCheckboxStates table noteId genKey viewingMonth).length → j ≠ i →
      (updateCheckboxState table viewingMonth i b noteId genKey).1[j]? =
        (priorCheckboxStates table noteId genKey viewingMonth)[j]?) ∧
    (∀ j, (priorCheckboxStates table noteId genKey viewingMonth).length ≤ j → j ≠ i →
      j < (updateCheckboxState table viewingMonth i b noteId genKey).1.length →
      (updateCheckboxState table viewingMonth i b noteId genKey).1[j]? = some false) ∧
    (findCheckboxRow (updateCheckboxState table viewingMonth i b noteId genKey).2
        noteId genKey viewingMonth).map (fun r => r.states) =
      some (updateCheckboxState table viewingMonth i b noteId genKey).1 := by
  have hmain : (updateCheckboxState table viewingMonth i b noteId genKey).1 =
      setCheckboxIndex (priorCheckboxStates table noteId genKey viewingMonth) i b := by
    unfold updateCheckboxState priorCheckboxStates
    cases h : findCheckboxRow table noteId genKey viewingMonth <;> simp [h]
  refine ⟨hmain, ?_, ?_, ?_, ?_, ?_⟩
  · rw [hmain, setCheckboxIndex_length]
  · rw [hmain, setCheckboxIndex_get_self]
  · intro j hj hne
    rw [hmain, setCheckboxIndex_get_lt _ _ _ _ hj hne]
  · intro j h1 hne h2
    rw [hmain] at h2 ⊢
    exact setCheckboxIndex_get_new _ _ _ _ h1 hne h2
  · unfold updateCheckboxState findCheckboxRow
    by_cases ht : pyTruthyStr noteId = true
    · simp only [ht, if_true]
      cases h : List.find?
          (fun r => r.noteId == noteId && r.viewingMonth == viewingMonth) table with
      | some r =>
        have hrf := replaceFirst_find?
          (fun r => r.noteId == noteId && r.viewingMonth == viewingMonth)
          (fun r' => { r' with states := setCheckboxIndex r.states i b })
          (fun a ha => ha) table
        simp only [h] at hrf
        simp [h, hrf]
      | none =>
        simp [h, List.find?_append]
    · have ht' : pyTruthyStr noteId = false := by simpa using ht
      simp only [ht', Bool.false_eq_true, if_false]
      cases h : List.find?
          (fun r => r.generalNoteMonthKey == genKey && r.viewingMonth == viewingMonth) table with
      | some r =>
        have hrf := replaceFirst_find?
          (fun r => r.generalNoteMonthKey == genKey && r.viewingMonth == viewingMonth)
          (fun r' => { r' with states := setCheckboxIndex r.states i b })
          (fun a ha => ha) table
        simp only [h] at hrf
        simp [h, hrf]
      | none =>
        simp [h, List.find?_append]

/-- C9 witness: updating index 5 to `true` on an empty store yields
`[false, false, false, false, false, true]` of length 6, stored under the
note's key. -/
theorem C9_update_checkbox_state_witness :
    (updateCheckboxState [] "2025-03" 5 true (some "n1") none).1 =
      [false, false, false, false, false, true] ∧
    (updateCheckboxState [] "2025-03" 5 true (some "n1") none).1.length = 6 ∧
    (updateCheckboxState [] "2025-03" 5 true (some "n1") none).1[5]? = some true ∧
    (updateCheckboxState [] "2025-03" 5 true (some "n1") none).1[2]? = some false := by
  have h := C9_update_checkbox_state [] "2025-03" 5 true (some "n1") none
  refine ⟨?_, ?_, h.2.2.1, ?_⟩
  · rw [h.1]; rfl
  · rw [h.2.1]; rfl
  · exact h.2.2.2.2.1 2 (by simp [priorCheckboxStates, findCheckboxRow, pyTruthyStr])
      (by decide) (by rw [h.2.1]; simp [priorCheckboxStates, findCheckboxRow, pyTruthyStr])

/-- The `_get_months_in_range` loop is exactly: take the consecutive
months from the start, while the end condition has not been hit, capped by
the fuel. -/
theorem monthsInRangeAux_eq (endMonth : Option String) :
    ∀ fuel year month,
      monthsInRangeAux endMonth year month fuel =
        ((consecutiveMonths (year, month) fuel).map
            (fun p => formatMonthKey p.1 p.2)).takeWhile
          (fun mk => !(affectedEndCond endMonth mk)) := by
  intro fuel
  induction fuel with
  | zero => intro y m; rfl
  | succ n ih =>
    intro y m
    have hnext : monthSucc (y, m) = if m + 1 > 12 then (y + 1, 1) else (y, m + 1) := rfl
    cases hc : affectedEndCond endMonth (formatMonthKey y m) with
    | true => simp [monthsInRangeAux, consecutiveMonths, hc]
    | false =>
      by_cases hm : m + 1 > 12 <;>
        simp [monthsInRangeAux, consecutiveMonths, hnext, hm, hc, ih]

/-- `consecutiveMonths` produces exactly `k` months. -/
theorem consecutiveMonths_length : ∀ (k : Nat) (s : Nat × Nat),
    (consecutiveMonths s k).length = k := by
  intro k
  induction k with
  | zero => intro s; rfl
  | succ n ih => intro s; simp [consecutiveMonths, ih]

/-- `_get_months_in_range` agrees with the spec-side window description. -/
theorem monthsInRange_eq_spec (startMonth : String) (endMonth : Option String) :
    monthsInRange startMonth endMonth 12 = specAffectedMonths startMonth endMonth := by
  unfold monthsInRange specAffectedMonths
  rw [monthsInRangeAux_eq]

/-- The affected-months window never exceeds 12 entries. -/
theorem monthsInRange_length_le (startMonth : String) (endMonth : Option String) :
    (monthsInRange startMonth endMonth 12).length ≤ 12 := by
  rw [monthsInRange_eq_spec]
  unfold specAffectedMonths
  calc (((consecutiveMonths (parseMonthKey startMonth) 12).map
        (fun p => formatMonthKey p.1 p.2)).takeWhile _).length
      ≤ ((consecutiveMonths (parseMonthKey startMonth) 12).map
          (fun p => formatMonthKey p.1 p.2)).length :=
        (List.takeWhile_sublist _).length_le
    _ = 12 := by rw [List.length_map, consecutiveMonths_length]

/-- Filtering by a disjunction of disjoint predicates is a permutation of
the concatenated filters. -/
theorem filter_or_perm {α : Type} (p q : α → Bool) (h : ∀ a, p a = true → q a = false) :
    ∀ l : List α, List.Perm (l.filter (fun a => p a || q a)) (l.filter p ++ l.filter q) := by
  intro l
  induction l with
  | nil => simp
  | cons x xs ih =>
    cases hp : p x with
    | true =>
      have hq := h x hp
      simp only [List.filter_cons, hp, hq, Bool.true_or, if_true]
      exact List.Perm.cons x ih
    | false =>
      cases hq : q x with
      | true =>
        simp only [List.filter_cons, hp, hq, Bool.false_or, if_true,
          Bool.false_eq_true, if_false]
        exact (List.Perm.cons x ih).trans List.perm_middle.symm
      | false =>
        simpa [List.filter_cons, hp, hq] using ih

/-- One archival fold step after another; the whole `sync_categories` fold
characterised over any distinct id list. -/
theorem syncStep_foldl (now : Nat) :
    ∀ (ids : List String) (c0 : Nat) (db : NotesDb), ids.Nodup →
      (ids.foldl (syncStep now) (c0, db)).2.notes =
        db.notes.filter (fun n => !(ids.contains n.categoryId)) ∧
      (ids.foldl (syncStep now) (c0, db)).2.known =
        db.known.filter (fun k => !(ids.contains k.categoryId)) ∧
      List.Perm (ids.foldl (syncStep now) (c0, db)).2.archived
        (db.archived ++
          (db.notes.filter (fun n => ids.contains n.categoryId)).map (toArchived now)) ∧
      (ids.foldl (syncStep now) (c0, db)).1 =
        c0 + (db.notes.filter (fun n => ids.contains n.categoryId)).length := by
  intro ids
  induction ids with
  | nil =>
    intro c0 db _
    simp [List.foldl]
  | cons x xs ih =>
    intro c0 db hnd
    rcases List.nodup_cons.mp hnd with ⟨hx, hxs⟩
    have hstep : syncStep now (c0, db) x =
        (c0 + (db.notes.filter (fun n => n.categoryId == x)).length,
          ⟨db.notes.filter (fun n => !(n.categoryId == x)),
            db.archived ++
              (db.notes.filter (fun n => n.categoryId == x)).map (toArchived now),
            db.known.filter (fun k => !(k.categoryId == x))⟩) := rfl
    have hnotes1 : ∀ (l : List DbNote),
        (l.filter (fun n => !(n.categoryId == x))).filter
            (fun n => !(xs.contains n.categoryId)) =
          l.filter (fun n => !((x :: xs).contains n.categoryId)) := by
      intro l
      rw [List.filter_filter]
      congr 1
      funext n
      simp only [List.contains_cons, Bool.not_or]
      rw [Bool.and_comm]
    have hknown1 : ∀ (l : List KnownCategoryRow),
        (l.filter (fun k => !(k.categoryId == x))).filter
            (fun k => !(xs.contains k.categoryId)) =
          l.filter (fun k => !((x :: xs).contains k.categoryId)) := by
      intro l
      rw [List.filter_filter]
      congr 1
      funext k
      simp only [List.contains_cons, Bool.not_or]
      rw [Bool.and_comm]
    have hxsonly : ∀ (l : List DbNote),
        (l.filter (fun n => !(n.categoryId == x))).filter
            (fun n => xs.contains n.categoryId) =
          l.filter (fun n => xs.contains n.categoryId) := by
      intro l
      rw [List.filter_filter]
      apply List.filter_congr
      intro n _
      cases hmem : xs.contains n.categoryId with
      | false => simp [hmem]
      | true =>
        have hne : n.categoryId ≠ x := by
          intro heq
          rw [heq] at hmem
          exact hx (List.mem_of_elem_eq_true hmem)
        simp [hmem, hne]
    have hdisj : ∀ n : DbNote, (n.categoryId == x) = true →
        xs.contains n.categoryId = false := by
      intro n hn
      have heq : n.categoryId = x := eq_of_beq hn
      cases hmem : xs.contains n.categoryId with
      | false => rfl
      | true =>
        rw [heq] at hmem
        exact absurd (List.mem_of_elem_eq_true hmem) hx
    have hsplit := filter_or_perm (fun n : DbNote => n.categoryId == x)
      (fun n => xs.contains n.categoryId) hdisj db.notes
    have hcontains : (fun n : DbNote => (x :: xs).contains n.categoryId) =
        (fun n => (n.categoryId == x) || xs.contains n.categoryId) := by
      funext n
      rw [List.contains_cons]
    obtain ⟨ihn, ihk, iha, ihc⟩ := ih (c0 + (db.notes.filter
      (fun n => n.categoryId == x)).length)
      ⟨db.notes.filter (fun n => !(n.categoryId == x)),
        db.archived ++
          (db.notes.filter (fun n => n.categoryId == x)).map (toArchived now),
        db.known.filter (fun k => !(k.categoryId == x))⟩ hxs
    rw [List.foldl_cons, hstep]
    refine ⟨?_, ?_, ?_, ?_⟩
    · rw [ihn]
      exact hnotes1 db.notes
    · rw [ihk]
      exact hknown1 db.known
    · refine iha.trans ?_
      rw [hxsonly db.notes, List.append_assoc, ← List.map_append, hcontains]
      exact List.Perm.append_left db.archived ((hsplit.map (toArchived now)).symm)
    · rw [ihc, hxsonly db.notes, hcontains]
      have hlen := hsplit.length_eq
      rw [List.length_append] at hlen
      rw [hlen]
      omega

/-! ## Claim C6: category archival on sync -/

/-- C6: `sync_categories(current_ids)` archives exactly the notes whose
category is known but absent from `current_ids`: each such note is copied
into `ArchivedNote` (same ciphertext and salt, `archived_at = now`,
original names recorded), the original notes and `KnownCategory` rows are
deleted, `archived_count` is the number of notes copied, and notes of
categories in `current_ids` are untouched. -/
theorem C6_sync_categories (now : Nat) (db : NotesDb) (current : List String)
    (hnd : (db.known.map (fun k => k.categoryId)).Nodup) :
    (syncCategories now db current).2.notes =
      db.notes.filter (fun n =>
        !((db.known.map (fun k => k.categoryId)).filter
            (fun i => !(current.contains i))).contains n.categoryId) ∧
    (syncCategories now db current).2.known =
      db.known.filter (fun k =>
        !((db.known.map (fun k' => k'.categoryId)).filter
            (fun i => !(current.contains i))).contains k.categoryId) ∧
    List.Perm (syncCategories now db current).2.archived
      (db.archived ++
        (db.notes.filter (fun n =>
          ((db.known.map (fun k => k.categoryId)).filter
              (fun i => !(current.contains i))).contains n.categoryId)).map
          (toArchived now)) ∧
    (syncCategories now db current).1 =
      (db.notes.filter (fun n =>
        ((db.known.map (fun k => k.categoryId)).filter
            (fun i => !(current.contains i))).contains n.categoryId)).length ∧
    (∀ a ∈ (syncCategories now db current).2.archived,
      a ∈ db.archived ∨
        ∃ n ∈ db.notes, a = toArchived now n ∧ a.contentEncrypted = n.contentEncrypted ∧
          a.salt = n.salt ∧ a.archivedAt = now ∧
          a.originalCategoryName = n.categoryName ∧
          a.originalGroupName = n.groupName) := by
  have hdel : ((db.known.map (fun k => k.categoryId)).filter
      (fun i => !(current.contains i))).Nodup := hnd.filter _
  obtain ⟨hn, hk, ha, hc⟩ := syncStep_foldl now
    ((db.known.map (fun k => k.categoryId)).filter (fun i => !(current.contains i)))
    0 db hdel
  refine ⟨hn, hk, ha, hc.trans (Nat.zero_add _), ?_⟩
  intro a hmem
  have := ha.mem_iff.mp hmem
  rcases List.mem_append.mp this with h | h
  · exact Or.inl h
  · right
    obtain ⟨n, hn', rfl⟩ := List.mem_map.mp h
    exact ⟨n, (List.mem_filter.mp hn').1, rfl, rfl, rfl, rfl, rfl, rfl⟩

/-- C6 witness: with known categories 42 and 7, current ids `{7, 9}`, the
note for category 42 is archived (same ciphertext/salt, names recorded),
the note for 7 is untouched, `KnownCategory(42)` is removed, and
`archived_count = 1`. -/
theorem C6_sync_categories_witness :
    (syncCategories 5
        ⟨[⟨"n42", "category", "42", "Food", none, none, "2025-01", "ct42", "s42", 1, 2⟩,
          ⟨"n7", "category", "7", "Rent", none, none, "2025-02", "ct7", "s7", 3, 4⟩],
          [], [⟨"42", "Food"⟩, ⟨"7", "Rent"⟩]⟩ ["7", "9"]).2.notes =
      [⟨"n7", "category", "7", "Rent", none, none, "2025-02", "ct7", "s7", 3, 4⟩] ∧
    (syncCategories 5
        ⟨[⟨"n42", "category", "42", "Food", none, none, "2025-01", "ct42", "s42", 1, 2⟩,
          ⟨"n7", "category", "7", "Rent", none, none, "2025-02", "ct7", "s7", 3, 4⟩],
          [], [⟨"42", "Food"⟩, ⟨"7", "Rent"⟩]⟩ ["7", "9"]).2.known =
      [⟨"7", "Rent"⟩] ∧
    List.Perm (syncCategories 5
        ⟨[⟨"n42", "category", "42", "Food", none, none, "2025-01", "ct42", "s42", 1, 2⟩,
          ⟨"n7", "category", "7", "Rent", none, none, "2025-02", "ct7", "s7", 3, 4⟩],
          [], [⟨"42", "Food"⟩, ⟨"7", "Rent"⟩]⟩ ["7", "9"]).2.archived
      [⟨"n42", "category", "42", "Food", none, none, "2025-01", "ct42", "s42", 1, 2, 5,
        "Food", none⟩] ∧
    (syncCategories 5
        ⟨[⟨"n42", "category", "42", "Food", none, none, "2025-01", "ct42", "s42", 1, 2⟩,
          ⟨"n7", "category", "7", "Rent", none, none, "2025-02", "ct7", "s7", 3, 4⟩],
          [], [⟨"42", "Food"⟩, ⟨"7", "Rent"⟩]⟩ ["7", "9"]).1 = 1 := by
  have h := C6_sync_categories 5
    ⟨[⟨"n42", "category", "42", "Food", none, none, "2025-01", "ct42", "s42", 1, 2⟩,
      ⟨"n7", "category", "7", "Rent", none, none, "2025-02", "ct7", "s7", 3, 4⟩],
      [], [⟨"42", "Food"⟩, ⟨"7", "Rent"⟩]⟩ ["7", "9"] (by decide)
  refine ⟨by rw [h.1]; rfl, by rw [h.2.1]; rfl, ?_, by rw [h.2.2.2.1]; rfl⟩
  have := h.2.2.1
  simpa using this

/-! ## Claim C7: inheritance impact -/

/-- C7: on the per-category note list (ascending, distinct months),
`get_inheritance_impact` returns a null `source_note` exactly when no
stored note lies strictly before `month_key` (and then the whole result is
the empty record: no affected months, empty checkbox map); otherwise
`source_note` is the latest stored note strictly before `month_key`,
`next_custom_note_month` is the smallest stored month strictly after it
(null exactly when none exists), and `affected_months` is exactly the
spec's window — consecutive months from `month_key`, stopping before
`next_custom_note_month`, at most 12 entries. -/
theorem C7_get_inheritance_impact (notes : List NoteR) (checkboxTable : List CheckboxRow)
    (monthKey : String) (hs : notes.Pairwise (fun a b => a.monthKey < b.monthKey)) :
    ((getInheritanceImpact notes checkboxTable monthKey).sourceNote = none ↔
      ∀ n ∈ notes, ¬ n.monthKey < monthKey) ∧
    ((getInheritanceImpact notes checkboxTable monthKey).sourceNote = none →
      getInheritanceImpact notes checkboxTable monthKey = ⟨none, [], [], none⟩) ∧
    (∀ r, (getInheritanceImpact notes checkboxTable monthKey).sourceNote = some r →
      ∃ n ∈ notes, n.monthKey < monthKey ∧
        r = ⟨n.id, n.monthKey, contentPreview n.content⟩ ∧
        ∀ n' ∈ notes, n'.monthKey < monthKey → n'.monthKey ≤ n.monthKey) ∧
    ((getInheritanceImpact notes checkboxTable monthKey).sourceNote.isSome →
      ((getInheritanceImpact notes checkboxTable monthKey).nextCustomNoteMonth = none ↔
        ∀ n ∈ notes, ¬ monthKey < n.monthKey) ∧
      (∀ e, (getInheritanceImpact notes checkboxTable monthKey).nextCustomNoteMonth =
          some e →
        (∃ n ∈ notes, n.monthKey = e) ∧ monthKey < e ∧
          ∀ n' ∈ notes, monthKey < n'.monthKey → e ≤ n'.monthKey) ∧
      (getInheritanceImpact notes checkboxTable monthKey).affectedMonths =
        specAffectedMonths monthKey
          (getInheritanceImpact notes checkboxTable monthKey).nextCustomNoteMonth) ∧
    (getInheritanceImpact notes checkboxTable monthKey).affectedMonths.length ≤ 12 := by
  have hrev : notes.reverse.Pairwise (fun a b => b.monthKey < a.monthKey) :=
    List.pairwise_reverse.mpr hs
  refine ⟨?_, ?_, ?_, ?_, ?_⟩
  · constructor
    · intro hnone n hn hlt
      cases hfind : notes.reverse.find? (fun n => pyStrLt n.monthKey monthKey) with
      | none =>
        have := List.find?_eq_none.mp hfind n (List.mem_reverse.mpr hn)
        exact this ((pyStrLt_iff _ _).mpr hlt)
      | some src =>
        unfold getInheritanceImpact at hnone
        rw [hfind] at hnone
        dsimp only at hnone
        exact absurd hnone (by simp)
    · intro hall
      have hfind : notes.reverse.find? (fun n => pyStrLt n.monthKey monthKey) = none := by
        rw [List.find?_eq_none]
        intro x hx hpx
        exact hall x (List.mem_reverse.mp hx) ((pyStrLt_iff _ _).mp hpx)
      unfold getInheritanceImpact
      rw [hfind]
  · intro hnone
    cases hfind : notes.reverse.find? (fun n => pyStrLt n.monthKey monthKey) with
    | none =>
      unfold getInheritanceImpact
      rw [hfind]
    | some src =>
      unfold getInheritanceImpact at hnone
      rw [hfind] at hnone
      dsimp only at hnone
      exact absurd hnone (by simp)
  · intro r hr
    unfold getInheritanceImpact at hr
    cases hfind : notes.reverse.find? (fun n => pyStrLt n.monthKey monthKey) with
    | none => rw [hfind] at hr; simp at hr
    | some src =>
      rw [hfind] at hr
      dsimp only at hr
      have hinj : (⟨src.id, src.monthKey, contentPreview src.content⟩ :
          SourcePreview) = r := by injection hr
      subst hinj
      have hmem : src ∈ notes := List.mem_reverse.mp (List.mem_of_find?_eq_some hfind)
      have hp := List.find?_some hfind
      simp only [] at hp
      refine ⟨src, hmem, (pyStrLt_iff _ _).mp hp, rfl, ?_⟩
      intro n' hn' hlt
      have := find?_first_of_pairwise hrev hfind n' (List.mem_reverse.mpr hn')
        ((pyStrLt_iff _ _).mpr hlt)
      rcases this with rfl | hlt'
      · exact le_refl _
      · exact le_of_lt hlt'
  · intro hsome
    cases hfind : notes.reverse.find? (fun n => pyStrLt n.monthKey monthKey) with
    | none =>
      unfold getInheritanceImpact at hsome
      rw [hfind] at hsome
      simp at hsome
    | some src =>
      unfold getInheritanceImpact
      rw [hfind]
      dsimp only
      refine ⟨?_, ?_, (monthsInRange_eq_spec monthKey _)⟩
      · rw [Option.map_eq_none', List.find?_eq_none]
        constructor
        · intro hall n hn hlt
          exact hall n hn ((pyStrLt_iff _ _).mpr hlt)
        · intro hall n hn hp
          exact hall n hn ((pyStrLt_iff _ _).mp hp)
      · intro e he
        obtain ⟨n, hfind', rfl⟩ : ∃ n,
            notes.find? (fun n => pyStrLt monthKey n.monthKey) = some n ∧ n.monthKey = e := by
          cases hf : notes.find? (fun n => pyStrLt monthKey n.monthKey) with
          | none => rw [hf] at he; simp at he
          | some n =>
            rw [hf] at he
            exact ⟨n, rfl, by simpa using he⟩
        have hmem : n ∈ notes := List.mem_of_find?_eq_some hfind'
        have hp := List.find?_some hfind'
        simp only [] at hp
        refine ⟨⟨n, hmem, rfl⟩, (pyStrLt_iff _ _).mp hp, ?_⟩
        intro n' hn' hlt
        have := find?_first_of_pairwise hs hfind' n' hn' ((pyStrLt_iff _ _).mpr hlt)
        rcases this with rfl | hlt'
        · exact le_refl _
        · exact le_of_lt hlt'
  · unfold getInheritanceImpact
    cases hfind : notes.reverse.find? (fun n => pyStrLt n.monthKey monthKey) with
    | none => simp
    | some src =>
      dsimp only
      exact monthsInRange_length_le monthKey _

/-- C7 witness: with notes in 2025-01 and 2025-06, the impact of creating a
note at 2025-04 has source 2025-01, next custom month 2025-06, and
affected months `["2025-04", "2025-05"]`. -/
theorem C7_get_inheritance_impact_witness :
    (getInheritanceImpact [⟨"a", "2025-01", "jan"⟩, ⟨"b", "2025-06", "jun"⟩] []
        "2025-04").sourceNote = some ⟨"a", "2025-01", "jan"⟩ ∧
    (getInheritanceImpact [⟨"a", "2025-01", "jan"⟩, ⟨"b", "2025-06", "jun"⟩] []
        "2025-04").nextCustomNoteMonth = some "2025-06" ∧
    (getInheritanceImpact [⟨"a", "2025-01", "jan"⟩, ⟨"b", "2025-06", "jun"⟩] []
        "2025-04").affectedMonths = ["2025-04", "2025-05"] ∧
    (getInheritanceImpact [⟨"a", "2025-01", "jan"⟩, ⟨"b", "2025-06", "jun"⟩] []
        "2025-04").affectedMonths.length ≤ 12 ∧
    getInheritanceImpact [⟨"a", "2025-01", "jan"⟩] [] "2025-01" = ⟨none, [], [], none⟩ := by
  have hpw : List.Pairwise (fun a b : NoteR => a.monthKey < b.monthKey)
      [⟨"a", "2025-01", "jan"⟩, ⟨"b", "2025-06", "jun"⟩] := by
    refine List.pairwise_cons.mpr ⟨?_, List.pairwise_cons.mpr ⟨?_, List.Pairwise.nil⟩⟩
    · intro b hb
      rw [List.mem_singleton] at hb
      subst hb
      rw [String.lt_iff_toList_lt]
      decide
    · intro b hb
      simp at hb
  have h := C7_get_inheritance_impact
    [⟨"a", "2025-01", "jan"⟩, ⟨"b", "2025-06", "jun"⟩] [] "2025-04" hpw
  have h1 := C7_get_inheritance_impact [⟨"a", "2025-01", "jan"⟩] [] "2025-01"
    (List.pairwise_singleton _ _)
  refine ⟨by decide, by decide, by decide, h.2.2.2.2, ?_⟩
  refine h1.2.1 (h1.1.mpr ?_)
  intro n hn
  rw [List.mem_singleton] at hn
  subst hn
  rw [String.lt_iff_toList_lt]
  decide

/-! ## Claim C8: create_match commit-before-side-effects -/

/-- C8: `create_match` on an already-matched `original_transaction_id`
returns a failure and leaves the store untouched (no events at all);
otherwise the row is committed as the first observable step, before any
upstream side-effect, and the result — committed row included — is
identical whatever the upstream calls do (exceptions are swallowed, never
propagated). -/
theorem C8_create_match (db : List MatchRow) (args : CreateMatchArgs)
    (notesCallRaises tagsCallRaises : Bool) :
    ((∃ m ∈ db, m.originalTransactionId = args.row.originalTransactionId) →
      createMatch db args notesCallRaises tagsCallRaises =
        ⟨false, db, []⟩) ∧
    ((∀ m ∈ db, m.originalTransactionId ≠ args.row.originalTransactionId) →
      (createMatch db args notesCallRaises tagsCallRaises).success = true ∧
      (createMatch db args notesCallRaises tagsCallRaises).db = db ++ [args.row] ∧
      ∃ upstream, (createMatch db args notesCallRaises tagsCallRaises).trace =
          MatchEvent.dbCommit :: upstream ∧
        MatchEvent.dbCommit ∉ upstream) ∧
    createMatch db args notesCallRaises tagsCallRaises = createMatch db args true true := by
  refine ⟨?_, ?_, rfl⟩
  · rintro ⟨m, hm, hoid⟩
    have hsome : (db.find? (fun x : MatchRow =>
        x.originalTransactionId == args.row.originalTransactionId)).isSome :=
      List.find?_isSome.mpr ⟨m, hm, by simp [hoid]⟩
    obtain ⟨m', hfind⟩ := Option.isSome_iff_exists.mp hsome
    unfold createMatch
    dsimp only
    rw [hfind]
  · intro hall
    have hnone : db.find? (fun x : MatchRow =>
        x.originalTransactionId == args.row.originalTransactionId) = none := by
      rw [List.find?_eq_none]
      intro x hx
      simpa using hall x hx
    unfold createMatch
    dsimp only
    rw [hnone]
    dsimp only
    refine ⟨rfl, rfl, ?_⟩
    refine ⟨_, rfl, ?_⟩
    split_ifs <;> simp

/-- C8 witness: matching `t1` twice fails without touching the store, while
matching it on a clean store succeeds with the commit as the first event,
even when both upstream calls raise. -/
theorem C8_create_match_witness :
    createMatch
        [⟨"t1", none, none, none, none, none, false, false, none, none, none, none,
          none, none⟩]
        ⟨⟨"t1", none, some 5, none, none, none, false, false, none, none, none, none,
          none, none⟩, true, some ["a"], none, none, some "rep"⟩ true true =
      ⟨false,
        [⟨"t1", none, none, none, none, none, false, false, none, none, none, none,
          none, none⟩], []⟩ ∧
    (createMatch []
        ⟨⟨"t1", none, some 5, none, none, none, false, false, none, none, none, none,
          none, none⟩, true, some ["a"], none, none, some "rep"⟩ true true).success =
      true ∧
    (createMatch []
        ⟨⟨"t1", none, some 5, none, none, none, false, false, none, none, none, none,
          none, none⟩, true, some ["a"], none, none, some "rep"⟩ true true).trace.head? =
      some MatchEvent.dbCommit := by
  have h1 := (C8_create_match
    [⟨"t1", none, none, none, none, none, false, false, none, none, none, none,
      none, none⟩]
    ⟨⟨"t1", none, some 5, none, none, none, false, false, none, none, none, none,
      none, none⟩, true, some ["a"], none, none, some "rep"⟩ true true).1
    ⟨⟨"t1", none, none, none, none, none, false, false, none, none, none, none,
      none, none⟩, by simp, rfl⟩
  have h2 := (C8_create_match []
    ⟨⟨"t1", none, some 5, none, none, none, false, false, none, none, none, none,
      none, none⟩, true, some ["a"], none, none, some "rep"⟩ true true).2.1
    (by simp)
  obtain ⟨hsucc, hdb, upstream, htrace, hmem⟩ := h2
  exact ⟨h1, hsucc, by rw [htrace]; rfl⟩

/-! ## Claim C10: lockout helpers ignore missing ips -/

/-- C10: with a `None` or empty ip, `is_ip_locked_out` returns `False`,
`record_failed_remote_unlock` returns `False` without touching the table,
and `clear_ip_lockout` is a no-op. -/
theorem C10_lockout_ignores_falsy_ip (now : Nat) (table : List IpRow) :
    isIpLockedOut now none table = (false, table) ∧
    isIpLockedOut now (some "") table = (false, table) ∧
    recordFailedRemoteUnlock now none table = (false, table) ∧
    recordFailedRemoteUnlock now (some "") table = (false, table) ∧
    clearIpLockout none table = table ∧
    clearIpLockout (some "") table = table :=
  ⟨rfl, rfl, rfl, rfl, rfl, rfl⟩

end Eclosion
